import Mathlib

/-!
Verification development for a territory-capture game engine
(tile-ownership grid, flood-fill capture, collision handling,
camping/shrink regulator).

Shallow embedding conventions:
* JS `number` world coordinates are modelled as `ℚ` (the claims under
  verification only involve exact comparisons, additions, multiplications
  and `Math.floor`, which IEEE doubles perform exactly on the ranges
  involved; square-root distance comparisons `sqrt e < d` are embedded as
  the equivalent `e < d^2` for `d ≥ 0`).
* The `Uint8Array` tile store is a `List Nat` whose writes reduce the
  written value `mod 256`, exactly as a `Uint8Array` store does.
* The JS `Map<number, number>` of cached tile counts is a total function
  `Nat → Nat`; `get(k) || 0` is `f k` and `get(k) || 1` is
  `if f k = 0 then 1 else f k`, which matches both the "absent key" and
  the "value 0" behaviour of `||`.
* Wall-clock time (`performance.now()`) enters the simulation only through
  comparisons; it is modelled by explicit `now : ℚ` state and, for the
  capture-queue time budget, by an oracle `Nat → Bool` giving the outcome
  of the k-th "elapsed > budget" check.
* `Math.random`-driven choices (border-tile shuffle, respawn placement)
  are modelled by explicit oracle parameters.
-/

namespace PaperGame

/-- From gameConfig.tileSize. -/
def tileSizeCfg : ℚ := 4

/-- From gameConfig.arena.widthTiles. -/
def widthTilesCfg : Nat := 500

/-- From gameConfig.arena.heightTiles. -/
def heightTilesCfg : Nat := 500

/-- derivedConfig.arenaWidthPx = widthTiles * tileSize. -/
def arenaWidthPx : ℚ := (widthTilesCfg : ℚ) * tileSizeCfg

/-- derivedConfig.arenaHeightPx = heightTiles * tileSize. -/
def arenaHeightPx : ℚ := (heightTilesCfg : ℚ) * tileSizeCfg

/-- gameConfig.player.radius. -/
def playerRadius : ℚ := 10

/-- gameConfig.shrink.campingThreshold (seconds). -/
def campingThreshold : ℚ := 3

/-- gameConfig.shrink.rate (tiles per second). -/
def shrinkRateCfg : ℚ := 150

/-- Game.boostDuration (ms). -/
def boostDuration : ℚ := 5000

/-- Game.maxCaptureTimePerFrame (ms); only its comparisons are modelled. -/
def maxCaptureTimePerFrame : ℚ := 4

/-- Vec2 from Vec2.ts restricted to the fields the engine claims use. -/
structure Vec2 where
  x : ℚ
  y : ℚ
deriving DecidableEq, Repr

/-- Difficulty levels as used by Game (BotAI's three plus 'impossible'). -/
inductive Difficulty where
  | easy | medium | hard | impossible
deriving DecidableEq, Repr

/-- Pointwise update of a total-function model of a JS Map. -/
def updFn (f : Nat → Nat) (k v : Nat) : Nat → Nat :=
  fun i => if i = k then v else f i

/--
TerritoryMap state (TerritoryMap.ts): `ownerMap` is the Uint8Array in
row-major order, `tileCounts` the cached per-owner counts.  Rendering
caches (canvas, dirty flag, rebuild throttle) are outside the simulation
state and are not modelled.
-/
structure TerritoryMap where
  widthTiles : Nat
  heightTiles : Nat
  tileSize : ℚ
  ownerMap : List Nat
  tileCounts : Nat → Nat

/-- TerritoryMap constructor: all-neutral grid, empty count cache. -/
def TerritoryMap.init (w h : Nat) : TerritoryMap :=
  { widthTiles := w, heightTiles := h, tileSize := tileSizeCfg
    ownerMap := List.replicate (w * h) 0, tileCounts := fun _ => 0 }

/-- TerritoryMap.isValidTile. -/
def TerritoryMap.isValidTile (m : TerritoryMap) (tileX tileY : Int) : Bool :=
  0 ≤ tileX && tileX < (m.widthTiles : Int) && 0 ≤ tileY && tileY < (m.heightTiles : Int)

/-- Row-major index `tileY * widthTiles + tileX` (used only on valid tiles). -/
def TerritoryMap.tileIndex (m : TerritoryMap) (tileX tileY : Int) : Nat :=
  tileY.toNat * m.widthTiles + tileX.toNat

/-- TerritoryMap.getOwner: sentinel -1 when out of bounds. -/
def TerritoryMap.getOwner (m : TerritoryMap) (tileX tileY : Int) : Int :=
  if m.isValidTile tileX tileY then ((m.ownerMap.getD (m.tileIndex tileX tileY) 0 : Nat) : Int)
  else -1

/-- TerritoryMap.worldToTile. -/
def TerritoryMap.worldToTile (m : TerritoryMap) (p : Vec2) : Int × Int :=
  (⌊p.x / m.tileSize⌋, ⌊p.y / m.tileSize⌋)

/--
TerritoryMap.setOwner.  The store into the Uint8Array truncates the value
mod 256; the early-return compares the *stored* old value with the full
`ownerId`; count bookkeeping uses the full `ownerId`.
-/
def TerritoryMap.setOwner (m : TerritoryMap) (tileX tileY : Int) (ownerId : Nat) :
    TerritoryMap :=
  if m.isValidTile tileX tileY then
    let idx := m.tileIndex tileX tileY
    let oldOwner := m.ownerMap.getD idx 0
    if oldOwner = ownerId then m
    else
      let c1 : Nat → Nat :=
        if 0 < oldOwner then
          updFn m.tileCounts oldOwner
            ((if m.tileCounts oldOwner = 0 then 1 else m.tileCounts oldOwner) - 1)
        else m.tileCounts
      let c2 : Nat → Nat :=
        if 0 < ownerId then updFn c1 ownerId (c1 ownerId + 1) else c1
      { m with ownerMap := m.ownerMap.set idx (ownerId % 256), tileCounts := c2 }
  else m

/-- TerritoryMap.countOwnedTiles (cached). -/
def TerritoryMap.countOwnedTiles (m : TerritoryMap) (ownerId : Nat) : Nat :=
  m.tileCounts ownerId

/-- TerritoryMap.getTotalTiles. -/
def TerritoryMap.getTotalTiles (m : TerritoryMap) : Nat :=
  m.widthTiles * m.heightTiles

/-- TerritoryMap.getOwnershipPercentage (uses the cached counts). -/
def TerritoryMap.getOwnershipPercentage (m : TerritoryMap) (ownerId : Nat) : ℚ :=
  ((m.countOwnedTiles ownerId : ℚ) / (m.getTotalTiles : ℚ)) * 100

/-- TerritoryMap.clearOwnerTerritory. -/
def TerritoryMap.clearOwnerTerritory (m : TerritoryMap) (ownerId : Nat) : TerritoryMap :=
  { m with
    ownerMap := m.ownerMap.map (fun v => if v = ownerId then 0 else v)
    tileCounts := updFn m.tileCounts ownerId 0 }

/-- TerritoryMap.transferTerritory (store of `toOwnerId` truncates mod 256). -/
def TerritoryMap.transferTerritory (m : TerritoryMap) (fromOwnerId toOwnerId : Nat) :
    TerritoryMap :=
  let fromCount := m.tileCounts fromOwnerId
  { m with
    ownerMap := m.ownerMap.map (fun v => if v = fromOwnerId then toOwnerId % 256 else v)
    tileCounts :=
      updFn (updFn m.tileCounts toOwnerId (m.tileCounts toOwnerId + fromCount)) fromOwnerId 0 }

/-- All tile coordinates in scan order (y outer, x inner), as the grid loops do. -/
def allTileCoords (w h : Nat) : List (Int × Int) :=
  (List.range h).flatMap
    (fun (y : Nat) => (List.range w).map (fun (x : Nat) => ((x : Int), (y : Int))))

/-- TerritoryMap.getBorderTiles: owned tiles with a four-neighbour not owned by `ownerId`. -/
def TerritoryMap.getBorderTiles (m : TerritoryMap) (ownerId : Nat) : List (Int × Int) :=
  (allTileCoords m.widthTiles m.heightTiles).filter (fun c =>
    m.ownerMap.getD (m.tileIndex c.1 c.2) 0 = ownerId &&
      (m.getOwner (c.1 - 1) c.2 ≠ (ownerId : Int) ||
       m.getOwner (c.1 + 1) c.2 ≠ (ownerId : Int) ||
       m.getOwner c.1 (c.2 - 1) ≠ (ownerId : Int) ||
       m.getOwner c.1 (c.2 + 1) ≠ (ownerId : Int)))

/-- A full rescan of the grid for one owner (the claims' reference count). -/
def TerritoryMap.rescanCount (m : TerritoryMap) (ownerId : Nat) : Nat :=
  m.ownerMap.count ownerId

/-! ## Capture engine (Game.captureTerritoryFromTail, Game.markThickLine) -/

/-- Player entity restricted to the simulation fields the claims use
(steering/rendering fields of Player.ts are not part of any claim). -/
structure Player where
  id : Nat
  pos : Vec2
  alive : Bool
  tail : List Vec2
  isDrawingTail : Bool
  lastTailPoint : Option Vec2
  kills : Nat
deriving DecidableEq, Repr

instance : Inhabited Player :=
  ⟨⟨0, ⟨0, 0⟩, false, [], false, none, 0⟩⟩

/-- Player.tailPointDistance. -/
def tailPointDistance : ℚ := 4

/-- Mark one cell of the local capture grid when inside the box. -/
def markCell (grid : List Nat) (width height : Nat) (tx ty : Int) : List Nat :=
  if 0 ≤ tx && tx < (width : Int) && 0 ≤ ty && ty < (height : Int) then
    grid.set (ty.toNat * width + tx.toNat) 1
  else grid

/-- The 3x3 stamp used both along the Bresenham line and at each tail vertex
(loop order oy outer, ox inner as in the source). -/
def stamp3x3 (grid : List Nat) (width height : Nat) (cx cy : Int) : List Nat :=
  [(-1 : Int), 0, 1].foldl
    (fun g oy =>
      [(-1 : Int), 0, 1].foldl (fun g' ox => markCell g' width height (cx + ox) (cy + oy)) g)
    grid

/-- One `while` pass of Game.markThickLine, driven by fuel; each iteration
stamps a 3x3 block and advances via the Bresenham error update.  The fuel
`|dx| + |dy| + 1` is exactly the number of iterations the loop performs. -/
def markThickLineGo (width height : Nat) (x1 y1 dx dy sx sy : Int) :
    Nat → List Nat → Int → Int → Int → List Nat
  | 0, grid, _, _, _ => grid
  | Nat.succ fuel, grid, x0, y0, err =>
    let grid' := stamp3x3 grid width height x0 y0
    if x0 = x1 && y0 = y1 then grid'
    else
      let e2 := 2 * err
      let err' := if e2 > -dy then err - dy else err
      let x0' := if e2 > -dy then x0 + sx else x0
      let err'' := if e2 < dx then err' + dx else err'
      let y0' := if e2 < dx then y0 + sy else y0
      markThickLineGo width height x1 y1 dx dy sx sy fuel grid' x0' y0' err''

/-- Game.markThickLine: Bresenham line with 3-thick stamping, in local
(box-relative) coordinates. -/
def markThickLine (grid : List Nat) (width height : Nat)
    (offsetX offsetY x0 y0 x1 y1 : Int) : List Nat :=
  let x0 := x0 - offsetX
  let y0 := y0 - offsetY
  let x1 := x1 - offsetX
  let y1 := y1 - offsetY
  let dx := |x1 - x0|
  let dy := |y1 - y0|
  let sx : Int := if x0 < x1 then 1 else -1
  let sy : Int := if y0 < y1 then 1 else -1
  markThickLineGo width height x1 y1 dx dy sx sy (dx + dy + 1).toNat grid x0 y0 (dx - dy)

/-- Visit one BFS cell: check the four neighbours in source order
(left, right, up, down), marking still-unknown ones as outside (2) and
appending them to the queue. -/
def bfsVisit (boxWidth boxHeight : Nat) (grid : List Nat) (queue : List Nat) (idx : Nat) :
    List Nat × List Nat :=
  let x := idx % boxWidth
  let y := idx / boxWidth
  let step := fun (g : List Nat) (q : List Nat) (cond : Bool) (n : Nat) =>
    if cond && g.getD n 1 = 0 then (g.set n 2, q ++ [n]) else (g, q)
  let (g1, q1) := step grid queue (decide (0 < x)) (idx - 1)
  let (g2, q2) := step g1 q1 (decide (x < boxWidth - 1)) (idx + 1)
  let (g3, q3) := step g2 q2 (decide (0 < y)) (idx - boxWidth)
  step g3 q3 (decide (y < boxHeight - 1)) (idx + boxWidth)

/-- The BFS loop of the flood fill; the queue is consumed FIFO.  Every cell
is marked 2 before being enqueued, so at most `boxWidth * boxHeight` cells
are ever dequeued and that fuel makes the recursion run to completion. -/
def bfsLoop (boxWidth boxHeight : Nat) : Nat → List Nat → List Nat → List Nat
  | 0, grid, _ => grid
  | _, grid, [] => grid
  | Nat.succ fuel, grid, idx :: rest =>
    let (grid', queue') := bfsVisit boxWidth boxHeight grid rest idx
    bfsLoop boxWidth boxHeight fuel grid' queue'

/-- Seed one flood-fill candidate cell (mark 2 and enqueue when unknown). -/
def seedCell (gq : List Nat × List Nat) (idx : Nat) : List Nat × List Nat :=
  if gq.1.getD idx 1 = 0 then (gq.1.set idx 2, gq.2 ++ [idx]) else gq

/-- Local cells of the capture box in scan order (by outer, bx inner). -/
def boxCells (bw bh : Nat) : List (Nat × Nat) :=
  (List.range bh).flatMap (fun b => (List.range bw).map (fun a => (a, b)))

/--
Game.captureTerritoryFromTail: converts the copied tail (plus the player's
current position as closing point) to tiles, computes the padded bounding
box jointly covering tail and all existing territory, builds the local
barrier grid (territory, thick tail lines, 3x3 vertex stamps), flood-fills
"outside" from the box edges, then annexes every still-unknown cell and
every tail-barrier cell not already owned.
-/
def captureFromTailTiles (g : TerritoryMap) (playerOwnerId : Nat)
    (tailTiles : List (Int × Int)) : TerritoryMap :=
    let mapWidth := g.widthTiles
    let mapHeight := g.heightTiles
    match tailTiles with
    | [] => g
    | t0 :: trest =>
      -- first pass: tail bounds (Infinity seeds collapse to a fold from the
      -- first element since the list is nonempty here)
      let tb := trest.foldl
        (fun (b : Int × Int × Int × Int) t =>
          (min b.1 t.1, max b.2.1 t.1, min b.2.2.1 t.2, max b.2.2.2 t.2))
        (t0.1, t0.1, t0.2, t0.2)
      -- expand to include all of the player's existing territory
      let bb := (allTileCoords mapWidth mapHeight).foldl
        (fun (b : Int × Int × Int × Int) c =>
          if g.getOwner c.1 c.2 = (playerOwnerId : Int) then
            (min b.1 c.1, max b.2.1 c.1, min b.2.2.1 c.2, max b.2.2.2 c.2)
          else b)
        tb
      let minX := max 0 (bb.1 - 2)
      let maxX := min ((mapWidth : Int) - 1) (bb.2.1 + 2)
      let minY := max 0 (bb.2.2.1 - 2)
      let maxY := min ((mapHeight : Int) - 1) (bb.2.2.2 + 2)
      let boxWidth := (maxX - minX + 1).toNat
      let boxHeight := (maxY - minY + 1).toNat
      -- temp grid: 0 unknown / 1 barrier / 2 outside
      let tempGrid : List Nat := List.replicate (boxWidth * boxHeight) 0
      -- mark existing player territory as barrier
      let tempGrid := (boxCells boxWidth boxHeight).foldl
        (fun tg c =>
          if g.getOwner ((c.1 : Int) + minX) ((c.2 : Int) + minY) = (playerOwnerId : Int) then
            tg.set (c.2 * boxWidth + c.1) 1
          else tg)
        tempGrid
      -- mark the tail path as thick barrier lines
      let tempGrid := (tailTiles.zip tailTiles.tail).foldl
        (fun tg seg =>
          markThickLine tg boxWidth boxHeight minX minY
            seg.1.1 seg.1.2 seg.2.1 seg.2.2)
        tempGrid
      -- mark each tail point with a small radius
      let tempGrid := tailTiles.foldl
        (fun tg t => stamp3x3 tg boxWidth boxHeight (t.1 - minX) (t.2 - minY))
        tempGrid
      -- seed the flood fill from all four edges of the box
      let gq : List Nat × List Nat := (tempGrid, [])
      let gq := (List.range boxWidth).foldl
        (fun s x => seedCell (seedCell s x) ((boxHeight - 1) * boxWidth + x)) gq
      let gq := (List.range boxHeight).foldl
        (fun s y => seedCell (seedCell s (y * boxWidth)) (y * boxWidth + boxWidth - 1)) gq
      let tempGrid := bfsLoop boxWidth boxHeight (boxWidth * boxHeight) gq.1 gq.2
      -- capture: unknown cells, and tail-barrier cells not already owned
      (boxCells boxWidth boxHeight).foldl
        (fun m c =>
          let idx := c.2 * boxWidth + c.1
          let mapX := (c.1 : Int) + minX
          let mapY := (c.2 : Int) + minY
          if tempGrid.getD idx 9 = 0 ||
              (tempGrid.getD idx 9 = 1 && m.getOwner mapX mapY ≠ (playerOwnerId : Int)) then
            m.setOwner mapX mapY playerOwnerId
          else m)
        g

/-- Game.captureTerritoryFromTail: guard trails under 3 points, convert the
tail plus the player's current position to tile coordinates, then run the
tile-level capture. -/
def captureTerritoryFromTail (g : TerritoryMap) (player : Player) (tail : List Vec2) :
    TerritoryMap :=
  if tail.length < 3 then g
  else captureFromTailTiles g player.id (tail.map g.worldToTile ++ [g.worldToTile player.pos])

/-! ## Orphan sweep (Game.captureOrphanedTiles) -/

/-- The sweep's local helper: player-owned or out of bounds (edges count as
enclosed); the designated owner is the human, id 1. -/
def isPlayerOrEdge (m : TerritoryMap) (x y : Int) : Bool :=
  if x < 0 || (m.widthTiles : Int) ≤ x || y < 0 || (m.heightTiles : Int) ≤ y then true
  else decide (m.getOwner x y = 1)

/-- One cell of the orphan sweep: annex a neutral tile whose four
neighbours are all player-owned or outside the grid. -/
def orphanSweepStep (m : TerritoryMap) (c : Int × Int) : TerritoryMap :=
  if m.getOwner c.1 c.2 = 0 then
    if isPlayerOrEdge m c.1 (c.2 - 1) && isPlayerOrEdge m c.1 (c.2 + 1) &&
        isPlayerOrEdge m (c.1 - 1) c.2 && isPlayerOrEdge m (c.1 + 1) c.2 then
      m.setOwner c.1 c.2 1
    else m
  else m

/-- The full-grid scan of Game.captureOrphanedTiles (y outer, x inner). -/
def orphanSweep (m : TerritoryMap) : TerritoryMap :=
  (allTileCoords m.widthTiles m.heightTiles).foldl orphanSweepStep m

/-- Game.captureOrphanedTiles including its gating: the tick-interval
throttle (360 mobile / 180 desktop) and the 10%-ownership optimisation.
Returns the new throttle counter together with the grid. -/
def captureOrphanedTiles (orphanCheckCounter : Nat) (isMobile : Bool) (m : TerritoryMap) :
    Nat × TerritoryMap :=
  let counter := orphanCheckCounter + 1
  let checkInterval : Nat := if isMobile then 360 else 180
  if counter < checkInterval then (counter, m)
  else if m.getOwnershipPercentage 1 < 10 then (0, m)
  else (0, orphanSweep m)

/-! ## Game state and collision handling -/

/-- Pointwise update of a total-function model of a JS Map (generic). -/
def updMap {α : Type} (f : Nat → α) (k : Nat) (v : α) : Nat → α :=
  fun i => if i = k then v else f i

/-- A queued capture: the player is stored by id (the source keeps a live
object reference; ids are unique and stable), the tail is a copy. -/
structure CaptureJob where
  playerId : Nat
  tail : List Vec2
deriving DecidableEq, Repr

/--
The Game fields touched by the claims.  `now` is the wall clock
(performance.now()); rendering, input, camera and HUD state are external
to the simulation and not modelled.
-/
structure GameState where
  territoryMap : TerritoryMap
  players : List Player
  wasInOwnTerritory : Nat → Bool
  captureQueue : List CaptureJob
  boostEndTimes : Nat → Option ℚ
  campingTimers : Nat → ℚ
  shrinkAccumulators : Nat → ℚ
  difficulty : Difficulty
  now : ℚ

/-- Randomness/irrational inputs of death handling, as explicit oracles:
bot respawn placement (Math.random), and the starting-territory noise
term Math.sin(dx*0.5)*Math.cos(dy*0.7)*2, which is not exactly
representable over ℚ. -/
structure RespawnOracle where
  spawnPos : Nat → Vec2
  spawnNoise : Int → Int → ℚ

/-- Squared distance between two points. -/
def distSq (p q : Vec2) : ℚ :=
  (p.x - q.x) ^ 2 + (p.y - q.y) ^ 2

/-- `Math.sqrt(distSq) < d`, embedded as the equivalent `distSq < d^2`
(every `d` used is positive). -/
def distLt (p q : Vec2) (d : ℚ) : Bool :=
  decide (distSq p q < d ^ 2)

/-- `Math.sqrt(distSq) ≥ d`, embedded as `d^2 ≤ distSq`. -/
def distGe (p q : Vec2) (d : ℚ) : Bool :=
  decide (d ^ 2 ≤ distSq p q)

/-- The tail collision distance: playerRadius * 0.8. -/
def collisionDist : ℚ := playerRadius * (4 / 5)

/-- Game.pointToLineDistance compared against a threshold `d`
(`sqrt ... < d` embedded squared, as above). -/
def pointToLineDistLt (point lineStart lineEnd : Vec2) (d : ℚ) : Bool :=
  let dx := lineEnd.x - lineStart.x
  let dy := lineEnd.y - lineStart.y
  let lenSq := dx ^ 2 + dy ^ 2
  if lenSq = 0 then distLt point lineStart d
  else
    let t := ((point.x - lineStart.x) * dx + (point.y - lineStart.y) * dy) / lenSq
    let t := max 0 (min 1 t)
    distLt point ⟨lineStart.x + t * dx, lineStart.y + t * dy⟩ d

/-- Game.checkSelfTailCollisionForPlayer: points before the last 5, then
segments before the last 6. -/
def checkSelfTailCollisionForPlayer (player : Player) : Bool :=
  if player.tail.length < 10 then false
  else
    ((player.tail.take (player.tail.length - 5)).any
        (fun t => distLt player.pos t collisionDist)) ||
      (((player.tail.zip player.tail.tail).take (player.tail.length - 6)).any
        (fun s => pointToLineDistLt player.pos s.1 s.2 collisionDist))

/-- Game.isPlayerBoosted: an end time is recorded and the clock is before it. -/
def isPlayerBoosted (gs : GameState) (playerId : Nat) : Bool :=
  match gs.boostEndTimes playerId with
  | none => false
  | some endTime => decide (gs.now < endTime)

/-- Game.activateBoost (the visual notification is not modelled). -/
def activateBoost (gs : GameState) (playerId : Nat) : GameState :=
  { gs with boostEndTimes := fun i => if i = playerId then some (gs.now + boostDuration) else gs.boostEndTimes i }

/-- generateStartingTerritory: noisy disk stamped through setOwner
(`sqrt(dx²+dy²) ≤ threshold` embedded as `0 ≤ threshold ∧ dx²+dy² ≤ threshold²`). -/
def generateStartingTerritory (noise : Int → Int → ℚ) (m : TerritoryMap)
    (center : Vec2) (ownerId : Nat) (radius : Nat) : TerritoryMap :=
  let centerTile := m.worldToTile center
  let offs : List Int := (List.range (2 * radius + 1)).map (fun k => (k : Int) - (radius : Int))
  offs.foldl
    (fun m1 dy =>
      offs.foldl
        (fun m2 dx =>
          let threshold := (radius : ℚ) + noise dx dy
          if 0 ≤ threshold ∧ ((dx ^ 2 + dy ^ 2 : Int) : ℚ) ≤ threshold ^ 2 then
            m2.setOwner (centerTile.1 + dx) (centerTile.2 + dy) ownerId
          else m2)
        m1)
    m

/-- Game.respawnPlayerEntity (steering-angle reset is not modelled; the
kill-effect visuals are not simulation state). -/
def respawnPlayerEntity (oracle : RespawnOracle) (gs : GameState) (i : Nat) : GameState :=
  let player := gs.players.getD i default
  let m1 := gs.territoryMap.clearOwnerTerritory player.id
  let spawn : Vec2 :=
    if player.id = 1 then ⟨arenaWidthPx / 2, arenaHeightPx / 2⟩ else oracle.spawnPos player.id
  let startRadius : Nat := if player.id = 1 then 12 else 10
  let m2 := generateStartingTerritory oracle.spawnNoise m1 spawn player.id startRadius
  let p1 := { player with pos := spawn, tail := [], isDrawingTail := false, lastTailPoint := none, alive := true }
  { gs with territoryMap := m2, players := gs.players.set i p1, wasInOwnTerritory := updMap gs.wasInOwnTerritory player.id true }

/-- Game.handlePlayerDeath: mark dead and clear the tail, then transfer or
clear territory (killer present), or clear and possibly respawn (no killer). -/
def handlePlayerDeath (oracle : RespawnOracle) (gs : GameState) (victimIdx : Nat)
    (killerIdx : Option Nat) : GameState :=
  let player := gs.players.getD victimIdx default
  let p1 := { player with alive := false, tail := [], isDrawingTail := false, lastTailPoint := none }
  let gs1 := { gs with players := gs.players.set victimIdx p1 }
  match killerIdx with
  | some k =>
    let killer := gs.players.getD k default
    if gs.difficulty = .impossible ∧ killer.id = 1 then
      { gs1 with territoryMap := gs1.territoryMap.clearOwnerTerritory player.id }
    else
      { gs1 with territoryMap := gs1.territoryMap.transferTerritory player.id killer.id }
  | none =>
    let gs2 := { gs1 with territoryMap := gs1.territoryMap.clearOwnerTerritory player.id }
    if player.id = 1 then gs2
    else respawnPlayerEntity oracle gs2 victimIdx

/-- The inner point scan of Game.checkAllTailCollisions: any trail point
before the last 2 within the collision distance (the source breaks at the
first hit; one hit and many hits produce the same state). -/
def anyTailHit (pos : Vec2) (tail : List Vec2) : Bool :=
  (tail.take (tail.length - 2)).any (fun t => distLt pos t collisionDist)

/-- One victim check of Game.checkAllTailCollisions: on a hit the victim
dies (with killer), the attacker's kill count increments once, and every
3rd kill activates the attacker's boost. -/
def processVictim (oracle : RespawnOracle) (aIdx : Nat) (gs : GameState) (vIdx : Nat) :
    GameState :=
  let attacker := gs.players.getD aIdx default
  let victim := gs.players.getD vIdx default
  if !victim.alive || attacker.id == victim.id then gs
  else if victim.tail.length < 3 then gs
  else if isPlayerBoosted gs victim.id then gs
  else if anyTailHit attacker.pos victim.tail then
    let gs1 := handlePlayerDeath oracle gs vIdx (some aIdx)
    let a1 := gs1.players.getD aIdx default
    let a2 := { a1 with kills := a1.kills + 1 }
    let gs2 := { gs1 with players := gs1.players.set aIdx a2 }
    if a2.kills % 3 = 0 then activateBoost gs2 attacker.id else gs2
  else gs

/-- One attacker pass of Game.checkAllTailCollisions. -/
def processAttacker (oracle : RespawnOracle) (gs : GameState) (aIdx : Nat) : GameState :=
  if !(gs.players.getD aIdx default).alive then gs
  else (List.range gs.players.length).foldl (processVictim oracle aIdx) gs

/-- Game.checkAllTailCollisions: every live attacker against every other
live victim's trail, in list order. -/
def checkAllTailCollisions (oracle : RespawnOracle) (gs : GameState) : GameState :=
  (List.range gs.players.length).foldl (processAttacker oracle) gs

/-! ## Wall collisions (Game.checkWallCollisions, Player.update clamp) -/

/-- The wall-death test of Game.checkWallCollisions (margin 2, strict). -/
def wallCollisionHit (pos : Vec2) : Bool :=
  decide (pos.x < 2) || decide (pos.x > arenaWidthPx - 2) ||
    decide (pos.y < 2) || decide (pos.y > arenaHeightPx - 2)

/-- Game.checkWallCollisions over all players. -/
def checkWallCollisions (oracle : RespawnOracle) (gs : GameState) : GameState :=
  (List.range gs.players.length).foldl
    (fun g i =>
      let p := g.players.getD i default
      if p.alive && wallCollisionHit p.pos then handlePlayerDeath oracle g i none else g)
    gs

/-- The position step of Player.update: the candidate position
`pos + dir*speed*dt` (abstracted into `move`, whose trigonometric
components the claims do not depend on) clamped into
`[edgeMargin, arena - edgeMargin]` with edgeMargin = 2. -/
def playerUpdatePos (pos move : Vec2) : Vec2 :=
  let newX := pos.x + move.x
  let newY := pos.y + move.y
  ⟨max 2 (min (arenaWidthPx - 2) newX), max 2 (min (arenaHeightPx - 2) newY)⟩

/-! ## Tail mechanics and the capture queue -/

/-- Game.queueCapture: push a job with a copy of the tail. -/
def queueCapture (gs : GameState) (player : Player) : GameState :=
  { gs with captureQueue := gs.captureQueue ++ [⟨player.id, player.tail⟩] }

/-- Game.updateTailMechanicsForPlayer for the player at index `i`:
re-entry with a tail enqueues a capture job and clears the tail; outside
own territory the trail is extended (and self-collision can kill). -/
def updateTailMechanicsForPlayer (oracle : RespawnOracle) (gs : GameState) (i : Nat) :
    GameState :=
  let player := gs.players.getD i default
  let currentTile := gs.territoryMap.worldToTile player.pos
  let isInOwn := gs.territoryMap.getOwner currentTile.1 currentTile.2 = (player.id : Int)
  let wasInOwn := gs.wasInOwnTerritory player.id
  let gs1 :=
    if isInOwn then
      let gsq := if ¬wasInOwn ∧ player.tail ≠ [] then queueCapture gs player else gs
      let p1 := { player with tail := [], isDrawingTail := false, lastTailPoint := none }
      { gsq with players := gsq.players.set i p1 }
    else
      if !player.isDrawingTail then
        let p1 := { player with isDrawingTail := true, tail := [player.pos], lastTailPoint := some player.pos }
        { gs with players := gs.players.set i p1 }
      else
        let lastPoint := player.lastTailPoint.getD player.pos
        if distGe player.pos lastPoint tailPointDistance then
          let p1 := { player with tail := player.tail ++ [player.pos], lastTailPoint := some player.pos }
          let gs2 := { gs with players := gs.players.set i p1 }
          if checkSelfTailCollisionForPlayer p1 then handlePlayerDeath oracle gs2 i none
          else gs2
        else gs
  { gs1 with wasInOwnTerritory := updMap gs1.wasInOwnTerritory player.id isInOwn }

/-- The per-tick tail pass (update loop lines: for each alive player,
updateTailMechanicsForPlayer). -/
def updateTailMechanicsAll (oracle : RespawnOracle) (gs : GameState) : GameState :=
  (List.range gs.players.length).foldl
    (fun g i =>
      if (g.players.getD i default).alive then updateTailMechanicsForPlayer oracle g i else g)
    gs

/-- Processing one CaptureJob: the player is looked up live by id (the
source holds the object reference), the stored tail copy is used. -/
def applyJobToMap (players : List Player) (m : TerritoryMap) (job : CaptureJob) :
    TerritoryMap :=
  match players.find? (fun p => p.id == job.playerId) with
  | some p => captureTerritoryFromTail m p job.tail
  | none => m

/-- The drain loop of Game.processQueuedCaptures.  `budget k` is the
outcome of the k-th `elapsed > maxCaptureTimePerFrame` wall-clock check
(time is an external input).  The fuel starts at the queue length, which
the loop can never exceed since each iteration pops one job. -/
def processQueuedCapturesGo (budget : Nat → Bool) : Nat → Nat → GameState → GameState
  | _, 0, gs => gs
  | k, Nat.succ fuel, gs =>
    match gs.captureQueue with
    | [] => gs
    | job :: rest =>
      if budget k then gs
      else
        processQueuedCapturesGo budget (k + 1) fuel
          { gs with captureQueue := rest
                    territoryMap := applyJobToMap gs.players gs.territoryMap job }

/-- Game.processQueuedCaptures: drain the FIFO queue under the time budget. -/
def processQueuedCaptures (budget : Nat → Bool) (gs : GameState) : GameState :=
  if gs.captureQueue = [] then gs
  else processQueuedCapturesGo budget 0 gs.captureQueue.length gs

/-- The capture pipeline portion of one tick of Game.update, in source
order: wall collisions, per-player tail mechanics, cross-trail collisions,
queued-capture drain.  (Boost pickups run between the last two in the
source but touch neither the grid nor the capture queue; movement
integration precedes all of these.) -/
def tickCapturePipeline (oracle : RespawnOracle) (budget : Nat → Bool) (gs : GameState) :
    GameState :=
  processQueuedCaptures budget
    (checkAllTailCollisions oracle
      (updateTailMechanicsAll oracle
        (checkWallCollisions oracle gs)))

/-! ## Camping / territory shrink (Game.updateCampingMechanic, Game.shrinkTerritory) -/

/-- The removal loop of Game.shrinkTerritory: walk the shuffled border
list, skip the tile under the player, clear tiles until the quota is met. -/
def shrinkRemoveLoop (playerTile : Int × Int) :
    TerritoryMap → List (Int × Int) → Nat → TerritoryMap
  | m, _, 0 => m
  | m, [], _ => m
  | m, t :: rest, Nat.succ k =>
    if t = playerTile then shrinkRemoveLoop playerTile m rest (Nat.succ k)
    else shrinkRemoveLoop playerTile (m.setOwner t.1 t.2 0) rest k

/-- Game.shrinkTerritory; `shuffle` is the Fisher-Yates permutation oracle
(Math.random). -/
def shrinkTerritory (shuffle : List (Int × Int) → List (Int × Int)) (gs : GameState)
    (playerId : Nat) (tilesToRemove : Nat) : GameState :=
  let borderTiles := gs.territoryMap.getBorderTiles playerId
  if borderTiles = [] then gs
  else
    let playerTile :=
      match gs.players.find? (fun p => p.id == playerId) with
      | some p => gs.territoryMap.worldToTile p.pos
      | none => ((-1 : Int), (-1 : Int))
    { gs with territoryMap :=
        shrinkRemoveLoop playerTile gs.territoryMap (shuffle borderTiles) tilesToRemove }

/-- One player's step of Game.updateCampingMechanic. -/
def updateCampingPlayer (dt : ℚ) (shuffle : Nat → List (Int × Int) → List (Int × Int))
    (gs : GameState) (i : Nat) : GameState :=
  let player := gs.players.getD i default
  if !player.alive then
    { gs with campingTimers := updMap gs.campingTimers player.id 0, shrinkAccumulators := updMap gs.shrinkAccumulators player.id 0 }
  else
    let campingTime := gs.campingTimers player.id
    let shrinkAccum := gs.shrinkAccumulators player.id
    let currentTile := gs.territoryMap.worldToTile player.pos
    let isInOwn := gs.territoryMap.getOwner currentTile.1 currentTile.2 = (player.id : Int)
    let hasTail := player.tail ≠ []
    if isInOwn ∧ ¬hasTail then
      let ct := campingTime + dt
      if campingThreshold < ct then
        let sa := shrinkAccum + dt
        let shrinkRate :=
          if gs.difficulty = .impossible then shrinkRateCfg * 2 else shrinkRateCfg
        let tilesToRemove : Int := ⌊sa * shrinkRate⌋
        if 0 < tilesToRemove then
          let sa' := sa - (tilesToRemove : ℚ) / shrinkRate
          let gs1 := shrinkTerritory (shuffle player.id) gs player.id tilesToRemove.toNat
          { gs1 with campingTimers := updMap gs1.campingTimers player.id ct, shrinkAccumulators := updMap gs1.shrinkAccumulators player.id sa' }
        else
          { gs with campingTimers := updMap gs.campingTimers player.id ct, shrinkAccumulators := updMap gs.shrinkAccumulators player.id sa }
      else
        { gs with campingTimers := updMap gs.campingTimers player.id ct, shrinkAccumulators := updMap gs.shrinkAccumulators player.id shrinkAccum }
    else
      let ct := max 0 (campingTime - dt)
      let sa := if ct ≤ campingThreshold then 0 else shrinkAccum
      { gs with campingTimers := updMap gs.campingTimers player.id ct, shrinkAccumulators := updMap gs.shrinkAccumulators player.id sa }

/-- Game.updateCampingMechanic over all players in list order. -/
def updateCampingMechanic (dt : ℚ) (shuffle : Nat → List (Int × Int) → List (Int × Int))
    (gs : GameState) : GameState :=
  (List.range gs.players.length).foldl (updateCampingPlayer dt shuffle) gs

/-! ## Mutation sequences over the grid (for the cache-correctness claims) -/

/-- One public TerritoryMap mutation. -/
inductive MapOp where
  | set (tileX tileY : Int) (ownerId : Nat)
  | transfer (fromOwnerId toOwnerId : Nat)
  | clear (ownerId : Nat)
deriving DecidableEq, Repr

/-- Apply one mutation. -/
def applyMapOp (m : TerritoryMap) : MapOp → TerritoryMap
  | .set x y o => m.setOwner x y o
  | .transfer f t => m.transferTerritory f t
  | .clear o => m.clearOwnerTerritory o

/-- Apply a sequence of mutations in order. -/
def applyMapOps (m : TerritoryMap) (ops : List MapOp) : TerritoryMap :=
  ops.foldl applyMapOp m

/-- Owner ids in the storable range, with transfer endpoints positive and
distinct (the in-game calls: setOwner ids 0..255, transfer/clear between
actual player ids). -/
def validMapOp : MapOp → Bool
  | .set _ _ o => o ≤ 255
  | .transfer f t => 1 ≤ f && f ≤ 255 && 1 ≤ t && t ≤ 255 && f != t
  | .clear o => 1 ≤ o && o ≤ 255

/-! ## Concrete scenario: filled disk plus an external closed loop (claim C1) -/

/-- Offsets of the filled disk of radius 2 (dx²+dy² ≤ 4). -/
def diskOffsets : List (Int × Int) :=
  [(0,0),(1,0),(-1,0),(0,1),(0,-1),(1,1),(1,-1),(-1,1),(-1,-1),(2,0),(-2,0),(0,2),(0,-2)]

/-- Owner 1's filled disk centred at tile (3,6). -/
def c1DiskTiles : List (Int × Int) := diskOffsets.map (fun d => (3 + d.1, 6 + d.2))

/-- 14×12 grid holding owner 1's disk, built through setOwner. -/
def c1Map : TerritoryMap :=
  c1DiskTiles.foldl (fun m c => m.setOwner c.1 c.2 1) (TerritoryMap.init 14 12)

/-- The recorded trail, tile by tile: out from the disk at (6,6), around
the rectangular ring with corners (7,3)–(10,6), closing back at (7,6). -/
def c1TailTileSeq : List (Int × Int) :=
  [(6,6),(7,6),(8,6),(9,6),(10,6),(10,5),(10,4),(10,3),(9,3),(8,3),(7,3),(7,4),(7,5),(7,6)]

/-- The same trail in world coordinates (tile centres, tileSize 4). -/
def c1Tail : List Vec2 := c1TailTileSeq.map (fun c => ⟨4 * c.1 + 2, 4 * c.2 + 2⟩)

/-- The capturing player, back inside the disk at tile (4,6). -/
def c1Player : Player :=
  { id := 1, pos := ⟨18, 26⟩, alive := true, tail := c1Tail,
    isDrawingTail := true, lastTailPoint := none, kills := 0 }

/-- The grid after processing the capture. -/
def c1After : TerritoryMap := captureTerritoryFromTail c1Map c1Player c1Tail

/-- The closed loop the trail traces: the rectangular ring [7,10]×[3,6]. -/
def c1LoopTiles : List (Int × Int) :=
  [(7,3),(8,3),(9,3),(10,3),(7,4),(10,4),(7,5),(10,5),(7,6),(8,6),(9,6),(10,6)]

/-- The tiles strictly inside that loop. -/
def c1InteriorTiles : List (Int × Int) := [(8,4),(9,4),(8,5),(9,5)]

/-! ## Concrete scenarios for the other claims -/

/-- 1×2 grid: owner 1 on tile (0,0), owner 2 on tile (1,0) (claim C2). -/
def c2Map : TerritoryMap :=
  ((TerritoryMap.init 2 1).setOwner 0 0 1).setOwner 1 0 2

/-- Mutation sequence exhibiting a self-transfer (claim C3). -/
def c3CounterOps : List MapOp := [.set 0 0 1, .transfer 1 1]

/-- Grid reached by the self-transfer sequence from a fresh 1×1 map. -/
def c3CounterMap : TerritoryMap := applyMapOps (TerritoryMap.init 1 1) c3CounterOps

/-- A valid mutation sequence for the amended cache-correctness witness. -/
def c3WitnessOps : List MapOp :=
  [.set 0 0 1, .set 1 0 2, .set 1 1 1, .transfer 1 2, .clear 2, .set 0 1 3]

/-- 3×3 grid, owner 1 on the 8 border tiles, neutral centre (claim C4). -/
def c4Map : TerritoryMap :=
  ([(0,0),(1,0),(2,0),(0,1),(2,1),(0,2),(1,2),(2,2)] : List (Int × Int)).foldl
    (fun m c => m.setOwner c.1 c.2 1) (TerritoryMap.init 3 3)

/-- A trivial oracle (its values are irrelevant to the claims that use it). -/
def trivialOracle : RespawnOracle :=
  { spawnPos := fun _ => ⟨0, 0⟩, spawnNoise := fun _ _ => 0 }

/-- 8×8 grid: owner 1 on the square (1,1)–(3,3) (claim C6 scenario). -/
def c6Map : TerritoryMap :=
  (([(1,1),(2,1),(3,1),(1,2),(2,2),(3,2),(1,3),(2,3),(3,3)] : List (Int × Int))).foldl
    (fun m c => m.setOwner c.1 c.2 1) (TerritoryMap.init 8 8)

/-- The re-entering player: standing on its own tile (2,2) with a recorded
3-point trail over tiles (4,2),(5,3),(4,4). -/
def c6Tail : List Vec2 := [⟨18, 10⟩, ⟨22, 14⟩, ⟨18, 18⟩]

/-- The player for the re-entry tick. -/
def c6Player : Player :=
  { id := 1, pos := ⟨10, 10⟩, alive := true, tail := c6Tail,
    isDrawingTail := true, lastTailPoint := some ⟨18, 18⟩, kills := 0 }

/-- Game state at the start of the re-entry tick: the player was outside
its territory last tick, the capture queue is empty. -/
def c6State : GameState :=
  { territoryMap := c6Map, players := [c6Player],
    wasInOwnTerritory := fun _ => false, captureQueue := [],
    boostEndTimes := fun _ => none, campingTimers := fun _ => 0,
    shrinkAccumulators := fun _ => 0, difficulty := .easy, now := 0 }

/-- A time oracle under which no budget check reports exhaustion. -/
def budgetNeverExhausted : Nat → Bool := fun _ => false

/-- The state after the re-entry tick's capture pipeline. -/
def c6After : GameState :=
  tickCapturePipeline trivialOracle budgetNeverExhausted c6State

/-- The re-entering player after the tail pass clears its trail. -/
def c6Player1 : Player :=
  { c6Player with tail := [], isDrawingTail := false, lastTailPoint := none }


/-- The state after the tail pass of the re-entry tick: the job is queued,
the grid untouched. -/
def c6Mid : GameState :=
  { c6State with players := [c6Player1], captureQueue := [⟨1, c6Tail⟩], wasInOwnTerritory := updMap c6State.wasInOwnTerritory 1 true }


/-- The recorded trail in tile coordinates, closed at the player's tile. -/
def c6TailTiles : List (Int × Int) := [(4, 2), (5, 3), (4, 4), (2, 2)]

/-- A dead player with a positive camping timer (claim C7 counterexample):
3×3 grid, owner 5 in the centre. -/
def c7Map : TerritoryMap := (TerritoryMap.init 3 3).setOwner 1 1 5

/-- The dead player standing on its single tile. -/
def c7DeadPlayer : Player :=
  { id := 5, pos := ⟨6, 6⟩, alive := false, tail := [],
    isDrawingTail := false, lastTailPoint := none, kills := 0 }

/-- State with the dead player's camping timer at 5 seconds. -/
def c7State : GameState :=
  { territoryMap := c7Map, players := [c7DeadPlayer],
    wasInOwnTerritory := fun _ => true, captureQueue := [],
    boostEndTimes := fun _ => none, campingTimers := fun _ => 5,
    shrinkAccumulators := fun _ => 0, difficulty := .easy, now := 0 }

/-- An identity shuffle oracle (a permutation, trivially). -/
def idShuffle : Nat → List (Int × Int) → List (Int × Int) := fun _ l => l

/-- 3×3 grid fully owned by player 7 (claim C7 witness scenario). -/
def c7wMap : TerritoryMap :=
  ([(0,0),(1,0),(2,0),(0,1),(1,1),(2,1),(0,2),(1,2),(2,2)] : List (Int × Int)).foldl
    (fun m c => m.setOwner c.1 c.2 7) (TerritoryMap.init 3 3)

/-- The camping player standing on tile (1,1) with no trail. -/
def c7wPlayer : Player :=
  { id := 7, pos := ⟨6, 6⟩, alive := true, tail := [],
    isDrawingTail := false, lastTailPoint := none, kills := 0 }

/-- A single-agent state with the camping timer already at 4 seconds. -/
def c7w : GameState :=
  { territoryMap := c7wMap, players := [c7wPlayer],
    wasInOwnTerritory := fun _ => true, captureQueue := [],
    boostEndTimes := fun _ => none, campingTimers := fun _ => 4,
    shrinkAccumulators := fun _ => 0, difficulty := .easy, now := 0 }

/-- C5 witness scenario: attacker at a point of the victim's trail. -/
def c5wA : Player :=
  ⟨1, ⟨100, 100⟩, true, [], false, none, 2⟩

def c5wV : Player :=
  ⟨2, ⟨300, 300⟩, true, [⟨100, 100⟩, ⟨200, 200⟩, ⟨300, 300⟩, ⟨400, 400⟩, ⟨500, 500⟩], false, none, 0⟩

def c5wState : GameState :=
  { territoryMap := TerritoryMap.init 3 3, players := [c5wA, c5wV], wasInOwnTerritory := fun _ => false, captureQueue := [], boostEndTimes := fun _ => none, campingTimers := fun _ => 0, shrinkAccumulators := fun _ => 0, difficulty := .medium, now := 0 }

/-! # Theorems -/

/-! ## Basic grid lemmas -/

theorem setOwner_widthTiles (m : TerritoryMap) (x y : Int) (o : Nat) :
    (m.setOwner x y o).widthTiles = m.widthTiles := by
  simp only [TerritoryMap.setOwner]
  split_ifs <;> rfl

theorem setOwner_heightTiles (m : TerritoryMap) (x y : Int) (o : Nat) :
    (m.setOwner x y o).heightTiles = m.heightTiles := by
  simp only [TerritoryMap.setOwner]
  split_ifs <;> rfl

theorem setOwner_tileSize (m : TerritoryMap) (x y : Int) (o : Nat) :
    (m.setOwner x y o).tileSize = m.tileSize := by
  simp only [TerritoryMap.setOwner]
  split_ifs <;> rfl

theorem setOwner_length (m : TerritoryMap) (x y : Int) (o : Nat) :
    (m.setOwner x y o).ownerMap.length = m.ownerMap.length := by
  simp only [TerritoryMap.setOwner]
  split_ifs <;> simp [List.length_set]

theorem isValidTile_iff (m : TerritoryMap) (x y : Int) :
    m.isValidTile x y = true ↔
      0 ≤ x ∧ x < (m.widthTiles : Int) ∧ 0 ≤ y ∧ y < (m.heightTiles : Int) := by
  simp [TerritoryMap.isValidTile, and_assoc]

theorem setOwner_isValidTile (m : TerritoryMap) (x y a b : Int) (o : Nat) :
    (m.setOwner a b o).isValidTile x y = m.isValidTile x y := by
  unfold TerritoryMap.isValidTile
  rw [setOwner_widthTiles, setOwner_heightTiles]

theorem tileIndex_lt (m : TerritoryMap) (x y : Int)
    (hv : m.isValidTile x y = true)
    (hlen : m.ownerMap.length = m.widthTiles * m.heightTiles) :
    m.tileIndex x y < m.ownerMap.length := by
  rw [isValidTile_iff] at hv
  obtain ⟨hx0, hxw, hy0, hyh⟩ := hv
  have hxw' : x.toNat < m.widthTiles := by omega
  have hyh' : y.toNat < m.heightTiles := by omega
  rw [hlen]
  unfold TerritoryMap.tileIndex
  calc y.toNat * m.widthTiles + x.toNat
      < y.toNat * m.widthTiles + m.widthTiles := by omega
    _ = (y.toNat + 1) * m.widthTiles := by ring
    _ ≤ m.heightTiles * m.widthTiles := Nat.mul_le_mul_right _ hyh'
    _ = m.widthTiles * m.heightTiles := Nat.mul_comm ..

theorem tileIndex_inj (m : TerritoryMap) (a b x y : Int)
    (hab : m.isValidTile a b = true) (hxy : m.isValidTile x y = true)
    (he : m.tileIndex a b = m.tileIndex x y) : a = x ∧ b = y := by
  rw [isValidTile_iff] at hab hxy
  unfold TerritoryMap.tileIndex at he
  obtain ⟨ha0, haw, hb0, hbh⟩ := hab
  obtain ⟨hx0, hxw, hy0, hyh⟩ := hxy
  have haw' : a.toNat < m.widthTiles := by omega
  have hxw' : x.toNat < m.widthTiles := by omega
  have hw : 0 < m.widthTiles := Nat.lt_of_le_of_lt (Nat.zero_le _) haw'
  have he' : a.toNat + b.toNat * m.widthTiles = x.toNat + y.toNat * m.widthTiles := by
    linarith [he]
  have h1 : a.toNat = x.toNat := by
    have hc := congrArg (· % m.widthTiles) he'
    simpa [Nat.add_mul_mod_self_right, Nat.mod_eq_of_lt haw', Nat.mod_eq_of_lt hxw'] using hc
  have h2 : b.toNat * m.widthTiles = y.toNat * m.widthTiles := by omega
  have h3 : b.toNat = y.toNat := Nat.eq_of_mul_eq_mul_right hw h2
  omega

/-- The tile index ignores the owner array and the count cache. -/
theorem setOwner_tileIndex (m : TerritoryMap) (a b x y : Int) (o : Nat) :
    (m.setOwner a b o).tileIndex x y = m.tileIndex x y := by
  unfold TerritoryMap.tileIndex
  rw [setOwner_widthTiles]

/-- The shape of setOwner's effect on the backing array. -/
theorem setOwner_ownerMap (m : TerritoryMap) (x y : Int) (o : Nat) :
    (m.setOwner x y o).ownerMap =
      if m.isValidTile x y = true ∧ m.ownerMap.getD (m.tileIndex x y) 0 ≠ o then
        m.ownerMap.set (m.tileIndex x y) (o % 256)
      else m.ownerMap := by
  simp only [TerritoryMap.setOwner]
  split_ifs <;> first | rfl | tauto

/-- Writing one tile does not change any other tile's owner. -/
theorem getOwner_setOwner_ne (m : TerritoryMap) (a b x y : Int) (o : Nat)
    (hne : ¬(a = x ∧ b = y)) :
    (m.setOwner a b o).getOwner x y = m.getOwner x y := by
  unfold TerritoryMap.getOwner
  rw [setOwner_isValidTile, setOwner_tileIndex, setOwner_ownerMap]
  by_cases hv : m.isValidTile x y = true
  · rw [if_pos hv, if_pos hv]
    split_ifs with hcond
    · obtain ⟨hab, _⟩ := hcond
      by_cases hij : m.tileIndex a b = m.tileIndex x y
      · exact absurd (tileIndex_inj m a b x y hab hv hij) hne
      · congr 1
        by_cases hlt : m.tileIndex x y < m.ownerMap.length
        · rw [List.getD_eq_getElem _ _ (by simpa using hlt),
            List.getD_eq_getElem _ _ hlt, List.getElem_set_ne hij]
        · rw [List.getD_eq_default _ _ (by simpa using Nat.le_of_not_lt hlt),
            List.getD_eq_default _ _ (Nat.le_of_not_lt hlt)]
    · rfl
  · rw [if_neg hv, if_neg hv]

/-- Writing an id below 256 to a valid tile makes that tile read back the id. -/
theorem getOwner_setOwner_self_small (m : TerritoryMap) (x y : Int) (o : Nat)
    (hv : m.isValidTile x y = true)
    (hlen : m.ownerMap.length = m.widthTiles * m.heightTiles)
    (ho : o < 256) :
    (m.setOwner x y o).getOwner x y = (o : Int) := by
  unfold TerritoryMap.getOwner
  rw [setOwner_isValidTile, setOwner_tileIndex, setOwner_ownerMap, if_pos hv]
  have hlt := tileIndex_lt m x y hv hlen
  split_ifs with hcond
  · rw [List.getD_eq_getElem _ _ (by simpa using hlt), List.getElem_set_self,
      Nat.mod_eq_of_lt ho]
  · have hold : m.ownerMap.getD (m.tileIndex x y) 0 = o := by tauto
    rw [hold]

/-- The shape of setOwner's effect on the count cache. -/
theorem setOwner_tileCounts (m : TerritoryMap) (x y : Int) (o : Nat) :
    (m.setOwner x y o).tileCounts =
      if m.isValidTile x y = true ∧ m.ownerMap.getD (m.tileIndex x y) 0 ≠ o then
        (fun c1 => if 0 < o then updFn c1 o (c1 o + 1) else c1)
          (if 0 < m.ownerMap.getD (m.tileIndex x y) 0 then
            updFn m.tileCounts (m.ownerMap.getD (m.tileIndex x y) 0)
              ((if m.tileCounts (m.ownerMap.getD (m.tileIndex x y) 0) = 0 then 1
                else m.tileCounts (m.ownerMap.getD (m.tileIndex x y) 0)) - 1)
          else m.tileCounts)
      else m.tileCounts := by
  simp only [TerritoryMap.setOwner]
  split_ifs <;> first | rfl | tauto

/-! ## Claim C8: out-of-bounds access -/

/-- C8: for every out-of-bounds tile coordinate, getOwner returns the
sentinel -1 (never an exception), and setOwner leaves the grid contents
and the cached per-owner counts unchanged. -/
theorem c8_oob_sentinel_and_noop (m : TerritoryMap) (x y : Int)
    (h : m.isValidTile x y = false) :
    m.getOwner x y = -1 ∧ ∀ ownerId : Nat, m.setOwner x y ownerId = m := by
  constructor
  · unfold TerritoryMap.getOwner
    rw [h]
    simp
  · intro o
    unfold TerritoryMap.setOwner
    rw [h]
    simp

/-- Witness for C8 at the concrete out-of-bounds coordinate (-1, 0) of a
2×2 grid. -/
theorem c8_oob_witness :
    (TerritoryMap.init 2 2).isValidTile (-1) 0 = false ∧
    (TerritoryMap.init 2 2).getOwner (-1) 0 = -1 ∧
    ∀ ownerId : Nat, (TerritoryMap.init 2 2).setOwner (-1) 0 ownerId = TerritoryMap.init 2 2 :=
  ⟨by decide, (c8_oob_sentinel_and_noop _ _ _ (by decide)).1,
    (c8_oob_sentinel_and_noop _ _ _ (by decide)).2⟩

/-! ## Claim C9: wall death unreachable after the movement clamp -/

/-- C9: Player.update clamps positions into [2, arena-2]², the same margin
the wall check compares against strictly, so a position produced by the
movement update never satisfies the wall-death condition. -/
theorem c9_wall_death_unreachable (pos move : Vec2) :
    wallCollisionHit (playerUpdatePos pos move) = false := by
  have hW : (2 : ℚ) ≤ arenaWidthPx - 2 := by
    norm_num [arenaWidthPx, widthTilesCfg, tileSizeCfg]
  have hH : (2 : ℚ) ≤ arenaHeightPx - 2 := by
    norm_num [arenaHeightPx, heightTilesCfg, tileSizeCfg]
  unfold wallCollisionHit playerUpdatePos
  simp only [Bool.or_eq_false_iff, decide_eq_false_iff_not, not_lt, gt_iff_lt]
  exact ⟨⟨⟨le_max_left _ _, max_le hW (min_le_left _ _)⟩, le_max_left _ _⟩,
    max_le hH (min_le_left _ _)⟩

/-! ## Claim C2: transferTerritory round trip -/

/-- Counterexample to C2 as stated: on a 1×2 grid with owner 1 on (0,0)
and owner 2 on (1,0), transferTerritory(1,2) then transferTerritory(2,1)
does not restore owner 1's tile set — tile (1,0), originally owner 2's,
ends up owned by owner 1. -/
theorem c2_counterexample :
    ((c2Map.transferTerritory 1 2).transferTerritory 2 1).ownerMap ≠ c2Map.ownerMap ∧
    c2Map.getOwner 1 0 = 2 ∧
    ((c2Map.transferTerritory 1 2).transferTerritory 2 1).getOwner 1 0 = 1 := by
  decide

/-- C2 amended: the round trip restores the grid exactly provided B
initially owns no tiles (and A ≠ B, both ids storable). -/
theorem c2_transfer_roundtrip (m : TerritoryMap) (A B : Nat)
    (hA : A < 256) (hB : B < 256) (_hAB : A ≠ B) (hBfree : B ∉ m.ownerMap) :
    ((m.transferTerritory A B).transferTerritory B A).ownerMap = m.ownerMap := by
  unfold TerritoryMap.transferTerritory
  simp only [List.map_map]
  have hpt : ∀ v ∈ m.ownerMap,
      ((fun v => if v = B then A % 256 else v) ∘ (fun v => if v = A then B % 256 else v)) v =
        id v := by
    intro v hv
    by_cases hvA : v = A
    · simp [hvA, Nat.mod_eq_of_lt hB, Nat.mod_eq_of_lt hA]
    · have hvB : v ≠ B := fun h => hBfree (h ▸ hv)
      simp [hvA, hvB]
  rw [List.map_congr_left hpt, List.map_id]

/-- Witness for the amended C2: concrete grid with owners 1 and 2,
round-tripping owner 1 through the unused id 3. -/
theorem c2_roundtrip_witness :
    ((1 : Nat) < 256 ∧ (3 : Nat) < 256 ∧ (1 : Nat) ≠ 3 ∧ (3 : Nat) ∉ c2Map.ownerMap) ∧
    ((c2Map.transferTerritory 1 3).transferTerritory 3 1).ownerMap = c2Map.ownerMap :=
  ⟨by decide, c2_transfer_roundtrip c2Map 1 3 (by decide) (by decide) (by decide) (by decide)⟩

/-! ## Claim C10: Uint8Array truncation of owner ids -/

/-- C10: on a valid tile, storing an ownerId ≥ 256 truncates mod 256 on
read-back while the cached count is incremented under the full id, making
the cache diverge from a rescan; ids in 0..255 are stored exactly. -/
theorem c10_uint8_truncation (m : TerritoryMap) (x y : Int) (ownerId : Nat)
    (hv : m.isValidTile x y = true)
    (hlen : m.ownerMap.length = m.widthTiles * m.heightTiles)
    (hvals : ∀ v ∈ m.ownerMap, v < 256)
    (hbig : 256 ≤ ownerId) :
    (m.setOwner x y ownerId).getOwner x y = ((ownerId % 256 : Nat) : Int) ∧
    (m.setOwner x y ownerId).tileCounts ownerId = m.tileCounts ownerId + 1 ∧
    (m.setOwner x y ownerId).rescanCount ownerId = 0 ∧
    (∀ smallId : Nat, smallId < 256 →
      (m.setOwner x y smallId).getOwner x y = (smallId : Int)) := by
  have hlt := tileIndex_lt m x y hv hlen
  have hold_mem : m.ownerMap.getD (m.tileIndex x y) 0 ∈ m.ownerMap := by
    rw [List.getD_eq_getElem _ _ hlt]
    exact List.getElem_mem hlt
  have hold_small : m.ownerMap.getD (m.tileIndex x y) 0 < 256 := hvals _ hold_mem
  have hold_ne : m.ownerMap.getD (m.tileIndex x y) 0 ≠ ownerId := by omega
  refine ⟨?_, ?_, ?_, fun s hs => getOwner_setOwner_self_small m x y s hv hlen hs⟩
  · unfold TerritoryMap.getOwner
    rw [setOwner_isValidTile, setOwner_tileIndex, setOwner_ownerMap, if_pos hv,
      if_pos ⟨hv, hold_ne⟩, List.getD_eq_getElem _ _ (by simpa using hlt),
      List.getElem_set_self]
  · rw [setOwner_tileCounts, if_pos ⟨hv, hold_ne⟩]
    have hpos : 0 < ownerId := by omega
    have hne' : ownerId ≠ m.ownerMap.getD (m.tileIndex x y) 0 := Ne.symm hold_ne
    split_ifs <;> simp only [updFn, if_true] <;> rw [if_neg hne']
  · unfold TerritoryMap.rescanCount
    rw [setOwner_ownerMap, if_pos ⟨hv, hold_ne⟩]
    rw [List.count_eq_zero]
    intro hmem
    rcases List.mem_or_eq_of_mem_set hmem with hin | heq
    · exact absurd (hvals _ hin) (by omega)
    · have : ownerId % 256 < 256 := Nat.mod_lt _ (by omega)
      omega

/-! ## Claim C1: disk-plus-loop capture -/

set_option maxRecDepth 1000000

/-- The world-coordinate capture of the C1 scenario reduces to the
tile-level capture on the trail tiles plus the closing tile (4,6). -/
theorem c1_capture_bridge :
    c1After = captureFromTailTiles c1Map 1 (c1TailTileSeq ++ [(4, 6)]) := by
  show captureTerritoryFromTail c1Map c1Player c1Tail = _
  unfold captureTerritoryFromTail
  rw [if_neg (by decide)]
  have hts : c1Map.tileSize = 4 := rfl
  congr 1
  show c1Tail.map c1Map.worldToTile ++ [c1Map.worldToTile c1Player.pos] = _
  simp only [c1Tail, c1TailTileSeq, c1Player, List.map, TerritoryMap.worldToTile, hts]
  norm_num

/-- Counterexample to C1 as stated: in the disk-plus-loop scenario the
loop's bounding box is [7,10]×[3,6], yet tile (11,6) outside that box is
modified (neutral before the capture, owned by player 1 after), because
the 3-thick trail rasterization overspills the loop by one tile. -/
theorem c1_counterexample :
    ((c1LoopTiles.all fun c => 7 ≤ c.1 && c.1 ≤ 10 && 3 ≤ c.2 && c.2 ≤ 6) = true) ∧
    ¬(7 ≤ (11 : Int) ∧ (11 : Int) ≤ 10) ∧
    c1Map.getOwner 11 6 = 0 ∧ c1After.getOwner 11 6 = 1 := by
  rw [c1_capture_bridge]
  decide

/-- C1 amended: every tile strictly inside the loop and every loop tile
becomes owned by player 1, and no tile outside the *trail's bounding box
expanded by one tile* ([3,11]×[2,7] here) is modified. -/
theorem c1_capture_correctness :
    ((c1LoopTiles ++ c1InteriorTiles).all
        (fun c => decide (c1After.getOwner c.1 c.2 = 1))) = true ∧
    ((allTileCoords 14 12).all
        (fun c => (3 ≤ c.1 && c.1 ≤ 11 && 2 ≤ c.2 && c.2 ≤ 7) ||
          decide (c1After.getOwner c.1 c.2 = c1Map.getOwner c.1 c.2))) = true := by
  rw [c1_capture_bridge]
  decide

/-! ## Claim C3: cache correctness under mutation sequences -/

theorem updFn_apply (f : Nat → Nat) (k v i : Nat) :
    updFn f k v i = if i = k then v else f i := rfl

theorem setOwner_preserves_inv (m : TerritoryMap) (x y : Int) (o : Nat) (ho : o ≤ 255)
    (hlen : m.ownerMap.length = m.widthTiles * m.heightTiles)
    (hvals : ∀ v ∈ m.ownerMap, v ≤ 255)
    (hcache : ∀ id, 1 ≤ id → m.tileCounts id = m.ownerMap.count id) :
    (m.setOwner x y o).ownerMap.length =
      (m.setOwner x y o).widthTiles * (m.setOwner x y o).heightTiles ∧
    (∀ v ∈ (m.setOwner x y o).ownerMap, v ≤ 255) ∧
    (∀ id, 1 ≤ id → (m.setOwner x y o).tileCounts id = (m.setOwner x y o).ownerMap.count id) := by
  refine ⟨?_, ?_, ?_⟩
  · rw [setOwner_length, setOwner_widthTiles, setOwner_heightTiles]
    exact hlen
  · intro v hv
    rw [setOwner_ownerMap] at hv
    split_ifs at hv with hcond
    · rcases List.mem_or_eq_of_mem_set hv with h | h
      · exact hvals v h
      · omega
    · exact hvals v hv
  · intro id hid
    rw [setOwner_ownerMap, setOwner_tileCounts]
    by_cases hcond : m.isValidTile x y = true ∧ m.ownerMap.getD (m.tileIndex x y) 0 ≠ o
    · rw [if_pos hcond, if_pos hcond]
      obtain ⟨hv, hold⟩ := hcond
      have hlt := tileIndex_lt m x y hv hlen
      have hgetd : m.ownerMap.getD (m.tileIndex x y) 0 = m.ownerMap[m.tileIndex x y] :=
        List.getD_eq_getElem _ _ hlt
      have holdmem : m.ownerMap.getD (m.tileIndex x y) 0 ∈ m.ownerMap := by
        rw [hgetd]
        exact List.getElem_mem hlt
      have hmod : o % 256 = o := Nat.mod_eq_of_lt (by omega)
      set old := m.ownerMap.getD (m.tileIndex x y) 0 with holddef
      have hcnt : (m.ownerMap.set (m.tileIndex x y) (o % 256)).count id =
          (m.ownerMap.count id - if old = id then 1 else 0) + if o = id then 1 else 0 := by
        rw [List.count_set _ _ _ _ hlt]
        simp only [beq_iff_eq, ← hgetd, hmod]
      rw [hcnt]
      have hcpos : 0 < m.ownerMap.count old := List.count_pos_iff.mpr holdmem
      have hc := hcache id hid
      split_ifs <;> simp only [updFn_apply] <;> (try split_ifs) <;> (try subst_vars) <;>
        (try have hcold := hcache old (by omega)) <;>
        (try have hcold2 := hcache id (by omega)) <;> omega
    · rw [if_neg hcond, if_neg hcond]
      exact hcache id hid

theorem count_map_replace (l : List Nat) (f t : Nat) (hft : f ≠ t) :
    (l.map (fun v => if v = f then t else v)).count t = l.count t + l.count f ∧
    (l.map (fun v => if v = f then t else v)).count f = 0 ∧
    (∀ c : Nat, c ≠ f → c ≠ t →
      (l.map (fun v => if v = f then t else v)).count c = l.count c) := by
  induction l with
  | nil => simp
  | cons a l ih =>
    obtain ⟨ih1, ih2, ih3⟩ := ih
    by_cases haf : a = f
    · subst haf
      refine ⟨?_, ?_, ?_⟩
      · simp [List.count_cons, ih1, hft, Ne.symm hft]
        omega
      · simp [List.count_cons, ih2, hft, Ne.symm hft]
      · intro c hcf hct
        simp [List.count_cons, ih3 c hcf hct, Ne.symm hcf, Ne.symm hct]
    · refine ⟨?_, ?_, ?_⟩
      · simp [List.count_cons, ih1, haf]
        omega
      · simp [List.count_cons, ih2, haf]
      · intro c hcf hct
        simp [List.count_cons, ih3 c hcf hct, haf]

theorem sum_count_le (s : Finset Nat) (l : List Nat) :
    (∑ i ∈ s, l.count i) ≤ l.length := by
  induction l with
  | nil => simp
  | cons a l ih =>
    have h1 : (∑ i ∈ s, (a :: l).count i) =
        (∑ i ∈ s, l.count i) + (∑ i ∈ s, if a = i then 1 else 0) := by
      rw [← Finset.sum_add_distrib]
      refine Finset.sum_congr rfl (fun i _ => ?_)
      simp only [List.count_cons, beq_iff_eq]
    rw [h1, Finset.sum_ite_eq s a (fun _ => 1)]
    simp only [List.length_cons]
    split_ifs <;> omega

theorem transferTerritory_preserves_inv (m : TerritoryMap) (f t : Nat)
    (hf1 : 1 ≤ f) (_hf2 : f ≤ 255) (ht1 : 1 ≤ t) (ht2 : t ≤ 255) (hft : f ≠ t)
    (hlen : m.ownerMap.length = m.widthTiles * m.heightTiles)
    (hvals : ∀ v ∈ m.ownerMap, v ≤ 255)
    (hcache : ∀ id, 1 ≤ id → m.tileCounts id = m.ownerMap.count id) :
    (m.transferTerritory f t).ownerMap.length =
      (m.transferTerritory f t).widthTiles * (m.transferTerritory f t).heightTiles ∧
    (∀ v ∈ (m.transferTerritory f t).ownerMap, v ≤ 255) ∧
    (∀ id, 1 ≤ id →
      (m.transferTerritory f t).tileCounts id = (m.transferTerritory f t).ownerMap.count id) := by
  have hmod : t % 256 = t := Nat.mod_eq_of_lt (by omega)
  obtain ⟨hct, hcf, hco⟩ := count_map_replace m.ownerMap f t hft
  refine ⟨?_, ?_, ?_⟩
  · show (m.ownerMap.map _).length = m.widthTiles * m.heightTiles
    rw [List.length_map]
    exact hlen
  · intro v hv
    show v ≤ 255
    simp only [TerritoryMap.transferTerritory, hmod] at hv
    rw [List.mem_map] at hv
    obtain ⟨u, hu, hmap⟩ := hv
    have := hvals u hu
    split_ifs at hmap <;> omega
  · intro id hid
    show updFn (updFn m.tileCounts t (m.tileCounts t + m.tileCounts f)) f 0 id =
      (m.ownerMap.map (fun v => if v = f then t % 256 else v)).count id
    simp only [hmod]
    have h1 := hcache id hid
    have h2 := hcache f hf1
    have h3 := hcache t ht1
    simp only [updFn_apply]
    split_ifs <;> (try subst_vars) <;>
      (try rw [hcf]) <;> (try rw [hct]) <;>
      (try rw [hco id (by omega) (by omega)]) <;> omega

theorem clearOwnerTerritory_preserves_inv (m : TerritoryMap) (o : Nat)
    (ho1 : 1 ≤ o) (_ho2 : o ≤ 255)
    (hlen : m.ownerMap.length = m.widthTiles * m.heightTiles)
    (hvals : ∀ v ∈ m.ownerMap, v ≤ 255)
    (hcache : ∀ id, 1 ≤ id → m.tileCounts id = m.ownerMap.count id) :
    (m.clearOwnerTerritory o).ownerMap.length =
      (m.clearOwnerTerritory o).widthTiles * (m.clearOwnerTerritory o).heightTiles ∧
    (∀ v ∈ (m.clearOwnerTerritory o).ownerMap, v ≤ 255) ∧
    (∀ id, 1 ≤ id →
      (m.clearOwnerTerritory o).tileCounts id = (m.clearOwnerTerritory o).ownerMap.count id) := by
  have hne : o ≠ 0 := by omega
  obtain ⟨hct, hcf, hco⟩ := count_map_replace m.ownerMap o 0 hne
  refine ⟨?_, ?_, ?_⟩
  · show (m.ownerMap.map _).length = m.widthTiles * m.heightTiles
    rw [List.length_map]
    exact hlen
  · intro v hv
    show v ≤ 255
    simp only [TerritoryMap.clearOwnerTerritory] at hv
    rw [List.mem_map] at hv
    obtain ⟨u, hu, hmap⟩ := hv
    have := hvals u hu
    split_ifs at hmap <;> omega
  · intro id hid
    show updFn m.tileCounts o 0 id =
      (m.ownerMap.map (fun v => if v = o then 0 else v)).count id
    have h1 := hcache id hid
    simp only [updFn_apply]
    split_ifs <;> (try subst_vars) <;>
      (try rw [hcf]) <;>
      (try rw [hco id (by omega) (by omega)]) <;> omega

theorem applyMapOps_preserves_inv (ops : List MapOp) (m : TerritoryMap)
    (hops : ∀ op ∈ ops, validMapOp op = true)
    (hlen : m.ownerMap.length = m.widthTiles * m.heightTiles)
    (hvals : ∀ v ∈ m.ownerMap, v ≤ 255)
    (hcache : ∀ id, 1 ≤ id → m.tileCounts id = m.ownerMap.count id) :
    (applyMapOps m ops).ownerMap.length =
      (applyMapOps m ops).widthTiles * (applyMapOps m ops).heightTiles ∧
    (∀ v ∈ (applyMapOps m ops).ownerMap, v ≤ 255) ∧
    (∀ id, 1 ≤ id →
      (applyMapOps m ops).tileCounts id = (applyMapOps m ops).ownerMap.count id) := by
  induction ops generalizing m with
  | nil => exact ⟨hlen, hvals, hcache⟩
  | cons op rest ih =>
    have hop : validMapOp op = true := hops op (List.mem_cons_self op rest)
    have hrest : ∀ op' ∈ rest, validMapOp op' = true :=
      fun op' h => hops op' (List.mem_cons_of_mem _ h)
    show (applyMapOps (applyMapOp m op) rest).ownerMap.length = _ ∧ _ ∧ _
    cases op with
    | set x y o =>
      have ho : o ≤ 255 := by
        simp only [validMapOp, decide_eq_true_eq] at hop
        exact hop
      have h := setOwner_preserves_inv m x y o ho hlen hvals hcache
      exact ih _ hrest h.1 h.2.1 h.2.2
    | transfer f t =>
      simp only [validMapOp, Bool.and_eq_true, decide_eq_true_eq, bne_iff_ne] at hop
      have h := transferTerritory_preserves_inv m f t hop.1.1.1.1 hop.1.1.1.2 hop.1.1.2
        hop.1.2 hop.2 hlen hvals hcache
      exact ih _ hrest h.1 h.2.1 h.2.2
    | clear o =>
      simp only [validMapOp, Bool.and_eq_true, decide_eq_true_eq] at hop
      have h := clearOwnerTerritory_preserves_inv m o hop.1 hop.2 hlen hvals hcache
      exact ih _ hrest h.1 h.2.1 h.2.2

theorem c3_cache_correctness (w h : Nat) (ops : List MapOp)
    (hops : ∀ op ∈ ops, validMapOp op = true) :
    (∀ id, 1 ≤ id →
      (applyMapOps (TerritoryMap.init w h) ops).tileCounts id =
        (applyMapOps (TerritoryMap.init w h) ops).rescanCount id) ∧
    (∑ i ∈ Finset.Icc 1 255, (applyMapOps (TerritoryMap.init w h) ops).tileCounts i) ≤
      (applyMapOps (TerritoryMap.init w h) ops).getTotalTiles := by
  have hlen0 : (TerritoryMap.init w h).ownerMap.length =
      (TerritoryMap.init w h).widthTiles * (TerritoryMap.init w h).heightTiles := by
    simp [TerritoryMap.init]
  have hvals0 : ∀ v ∈ (TerritoryMap.init w h).ownerMap, v ≤ 255 := by
    intro v hv
    have := List.eq_of_mem_replicate hv
    omega
  have hcache0 : ∀ id, 1 ≤ id →
      (TerritoryMap.init w h).tileCounts id = (TerritoryMap.init w h).ownerMap.count id := by
    intro id hid
    show 0 = (List.replicate (w * h) 0).count id
    rw [List.count_replicate]
    simp only [beq_iff_eq]
    rw [if_neg (by omega)]
  obtain ⟨hlen, _hvals, hcache⟩ :=
    applyMapOps_preserves_inv ops (TerritoryMap.init w h) hops hlen0 hvals0 hcache0
  constructor
  · intro id hid
    exact hcache id hid
  · calc (∑ i ∈ Finset.Icc 1 255, (applyMapOps (TerritoryMap.init w h) ops).tileCounts i)
        = ∑ i ∈ Finset.Icc 1 255, (applyMapOps (TerritoryMap.init w h) ops).ownerMap.count i := by
          refine Finset.sum_congr rfl (fun i hi => ?_)
          exact hcache i (Finset.mem_Icc.mp hi).1
      _ ≤ (applyMapOps (TerritoryMap.init w h) ops).ownerMap.length :=
          sum_count_le _ _
      _ = (applyMapOps (TerritoryMap.init w h) ops).getTotalTiles := hlen

/-- Counterexample to C3 as stated: the two-op sequence
[setOwner(0,0,1); transferTerritory(1,1)] uses only in-range owner ids,
yet afterwards the cached count for owner 1 is 0 while a full rescan
finds 1 tile. -/
theorem c3_counterexample :
    c3CounterMap.tileCounts 1 ≠ c3CounterMap.rescanCount 1 ∧
    c3CounterMap.tileCounts 1 = 0 ∧ c3CounterMap.rescanCount 1 = 1 := by
  decide

theorem c3_cache_witness :
    (∀ op ∈ c3WitnessOps, validMapOp op = true) ∧
    ((∀ id, 1 ≤ id →
      (applyMapOps (TerritoryMap.init 2 2) c3WitnessOps).tileCounts id =
        (applyMapOps (TerritoryMap.init 2 2) c3WitnessOps).rescanCount id) ∧
    (∑ i ∈ Finset.Icc 1 255, (applyMapOps (TerritoryMap.init 2 2) c3WitnessOps).tileCounts i) ≤
      (applyMapOps (TerritoryMap.init 2 2) c3WitnessOps).getTotalTiles) :=
  ⟨by decide, c3_cache_correctness 2 2 c3WitnessOps (by decide)⟩

/-! ## Claim C4: orphan sweep -/

theorem isValidTile_of_getOwner_eq (m : TerritoryMap) (x y : Int) (v : Nat)
    (h : m.getOwner x y = (v : Int)) : m.isValidTile x y = true := by
  unfold TerritoryMap.getOwner at h
  by_cases hv : m.isValidTile x y = true
  · exact hv
  · rw [if_neg hv] at h
    omega

theorem orphanSweepStep_widthTiles (m : TerritoryMap) (c : Int × Int) :
    (orphanSweepStep m c).widthTiles = m.widthTiles := by
  unfold orphanSweepStep
  split_ifs <;> simp [setOwner_widthTiles]

theorem orphanSweepStep_heightTiles (m : TerritoryMap) (c : Int × Int) :
    (orphanSweepStep m c).heightTiles = m.heightTiles := by
  unfold orphanSweepStep
  split_ifs <;> simp [setOwner_heightTiles]

theorem orphanSweepStep_length (m : TerritoryMap) (c : Int × Int) :
    (orphanSweepStep m c).ownerMap.length = m.ownerMap.length := by
  unfold orphanSweepStep
  split_ifs <;> simp [setOwner_length]

/-- The sweep never un-owns a player tile. -/
theorem orphanSweepStep_preserves_one (m : TerritoryMap) (c : Int × Int) (x y : Int)
    (h : m.getOwner x y = 1) : (orphanSweepStep m c).getOwner x y = 1 := by
  unfold orphanSweepStep
  split_ifs with h0 hnb
  · rw [getOwner_setOwner_ne]
    · exact h
    · rintro ⟨rfl, rfl⟩
      rw [h] at h0
      exact absurd h0 (by decide)
  · exact h
  · exact h

theorem orphanSweepFold_preserves_one (l : List (Int × Int)) (m : TerritoryMap) (x y : Int)
    (h : m.getOwner x y = 1) : (l.foldl orphanSweepStep m).getOwner x y = 1 := by
  induction l generalizing m with
  | nil => exact h
  | cons c cs ih => exact ih _ (orphanSweepStep_preserves_one m c x y h)

/-- The sweep's enclosure test survives sweep steps. -/
theorem isPlayerOrEdge_step_preserved (m : TerritoryMap) (c : Int × Int) (x y : Int)
    (h : isPlayerOrEdge m x y = true) : isPlayerOrEdge (orphanSweepStep m c) x y = true := by
  unfold isPlayerOrEdge at h ⊢
  rw [orphanSweepStep_widthTiles, orphanSweepStep_heightTiles]
  split_ifs at h ⊢ with hoob
  · rfl
  · simp only [decide_eq_true_eq] at h ⊢
    exact orphanSweepStep_preserves_one m c x y h

/-- A neutral tile enclosed by player territory (or the edge) in the
initial grid is owner 1 after folding the sweep over any coordinate list
containing it. -/
theorem orphanSweepFold_captures (l : List (Int × Int)) (m : TerritoryMap) (t : Int × Int)
    (hlen : m.ownerMap.length = m.widthTiles * m.heightTiles)
    (hmem : t ∈ l)
    (hown : m.getOwner t.1 t.2 = 0 ∨ m.getOwner t.1 t.2 = 1)
    (hn1 : isPlayerOrEdge m t.1 (t.2 - 1) = true)
    (hn2 : isPlayerOrEdge m t.1 (t.2 + 1) = true)
    (hn3 : isPlayerOrEdge m (t.1 - 1) t.2 = true)
    (hn4 : isPlayerOrEdge m (t.1 + 1) t.2 = true) :
    (l.foldl orphanSweepStep m).getOwner t.1 t.2 = 1 := by
  induction l generalizing m with
  | nil => exact absurd hmem (List.not_mem_nil t)
  | cons c cs ih =>
    rw [List.foldl_cons]
    have hlen' : (orphanSweepStep m c).ownerMap.length =
        (orphanSweepStep m c).widthTiles * (orphanSweepStep m c).heightTiles := by
      rw [orphanSweepStep_length, orphanSweepStep_widthTiles, orphanSweepStep_heightTiles]
      exact hlen
    rcases hown with hown0 | hown1
    · by_cases hct : c = t
      · subst hct
        have hstep : (orphanSweepStep m c).getOwner c.1 c.2 = 1 := by
          unfold orphanSweepStep
          rw [if_pos hown0, if_pos (by rw [hn1, hn2, hn3, hn4]; rfl)]
          exact getOwner_setOwner_self_small m c.1 c.2 1
            (isValidTile_of_getOwner_eq m c.1 c.2 0 hown0) hlen (by omega)
        exact orphanSweepFold_preserves_one cs _ c.1 c.2 hstep
      · have hmem' : t ∈ cs := by
          rcases List.mem_cons.mp hmem with h | h
          · exact absurd h.symm hct
          · exact h
        have hown' : (orphanSweepStep m c).getOwner t.1 t.2 = 0 := by
          unfold orphanSweepStep
          split_ifs with h0 hnb
          · rw [getOwner_setOwner_ne]
            · exact hown0
            · intro hceq
              exact hct (Prod.ext hceq.1 hceq.2)
          · exact hown0
          · exact hown0
        exact ih _ hlen' hmem' (Or.inl hown')
          (isPlayerOrEdge_step_preserved m c _ _ hn1)
          (isPlayerOrEdge_step_preserved m c _ _ hn2)
          (isPlayerOrEdge_step_preserved m c _ _ hn3)
          (isPlayerOrEdge_step_preserved m c _ _ hn4)
    · exact orphanSweepFold_preserves_one (c :: cs) m t.1 t.2 hown1

theorem mem_allTileCoords (w h : Nat) (x y : Int) :
    (x, y) ∈ allTileCoords w h ↔ 0 ≤ x ∧ x < (w : Int) ∧ 0 ≤ y ∧ y < (h : Int) := by
  unfold allTileCoords
  rw [List.mem_flatMap]
  constructor
  · rintro ⟨b, hb, hx⟩
    rw [List.mem_range] at hb
    rw [List.mem_map] at hx
    obtain ⟨a, ha, heq⟩ := hx
    rw [List.mem_range] at ha
    rw [Prod.mk.injEq] at heq
    omega
  · rintro ⟨hx0, hxw, hy0, hyh⟩
    have hx' : x.toNat ∈ List.range w := List.mem_range.mpr (by omega)
    have hxy : (((x.toNat : Nat) : Int), ((y.toNat : Nat) : Int)) = (x, y) := by
      rw [Prod.mk.injEq]
      exact ⟨Int.toNat_of_nonneg hx0, Int.toNat_of_nonneg hy0⟩
    refine ⟨y.toNat, List.mem_range.mpr (by omega), ?_⟩
    rw [← hxy]
    exact List.mem_map_of_mem _ hx'

/-- C4: on the 3×3 grid with owner 1 on the border and a neutral centre,
running the (throttle-triggered) orphan sweep annexes the centre and
yields 100% ownership; in general the sweep annexes every neutral tile
whose four neighbours are each owned by the designated owner (id 1) or
outside the grid. -/
theorem c4_orphan_sweep :
    ((captureOrphanedTiles 179 false c4Map).2.getOwner 1 1 = 1 ∧
      (captureOrphanedTiles 179 false c4Map).2.getOwnershipPercentage 1 = 100) ∧
    (∀ (m : TerritoryMap) (t : Int × Int),
      m.ownerMap.length = m.widthTiles * m.heightTiles →
      m.getOwner t.1 t.2 = 0 →
      isPlayerOrEdge m t.1 (t.2 - 1) = true →
      isPlayerOrEdge m t.1 (t.2 + 1) = true →
      isPlayerOrEdge m (t.1 - 1) t.2 = true →
      isPlayerOrEdge m (t.1 + 1) t.2 = true →
      (orphanSweep m).getOwner t.1 t.2 = 1) := by
  constructor
  · have hgate : captureOrphanedTiles 179 false c4Map = (0, orphanSweep c4Map) := by
      unfold captureOrphanedTiles
      rw [if_neg (by decide)]
      rw [if_neg ?_]
      case _ =>
        have h8 : c4Map.countOwnedTiles 1 = 8 := by decide
        have ht : c4Map.getTotalTiles = 9 := by decide
        unfold TerritoryMap.getOwnershipPercentage
        rw [h8, ht]
        norm_num
    rw [hgate]
    constructor
    · decide
    · have hcount : (orphanSweep c4Map).countOwnedTiles 1 = 9 := by decide
      have htot : (orphanSweep c4Map).getTotalTiles = 9 := by decide
      unfold TerritoryMap.getOwnershipPercentage
      rw [hcount, htot]
      norm_num
  · intro m t hlen hown hn1 hn2 hn3 hn4
    unfold orphanSweep
    have hv := isValidTile_of_getOwner_eq m t.1 t.2 0 hown
    rw [isValidTile_iff] at hv
    refine orphanSweepFold_captures _ m t hlen ?_ (Or.inl hown) hn1 hn2 hn3 hn4
    have : (t.1, t.2) ∈ allTileCoords m.widthTiles m.heightTiles :=
      (mem_allTileCoords _ _ _ _).mpr ⟨hv.1, hv.2.1, hv.2.2.1, hv.2.2.2⟩
    simpa using this

/-- Witness for C4's general part at the 3×3 scenario's centre tile. -/
theorem c4_orphan_witness :
    (c4Map.ownerMap.length = c4Map.widthTiles * c4Map.heightTiles ∧
      c4Map.getOwner 1 1 = 0 ∧
      isPlayerOrEdge c4Map 1 0 = true ∧ isPlayerOrEdge c4Map 1 2 = true ∧
      isPlayerOrEdge c4Map 0 1 = true ∧ isPlayerOrEdge c4Map 2 1 = true) ∧
    (orphanSweep c4Map).getOwner 1 1 = 1 :=
  ⟨by decide, c4_orphan_sweep.2 c4Map (1, 1) (by decide) (by decide) (by decide)
    (by decide) (by decide) (by decide)⟩

/-- Witness for C10: a fresh 2×2 grid, tile (0,0), ownerId 300. -/
theorem c10_uint8_witness :
    ((TerritoryMap.init 2 2).isValidTile 0 0 = true ∧ 256 ≤ 300) ∧
    (((TerritoryMap.init 2 2).setOwner 0 0 300).getOwner 0 0 = ((300 % 256 : Nat) : Int) ∧
      ((TerritoryMap.init 2 2).setOwner 0 0 300).tileCounts 300 =
        (TerritoryMap.init 2 2).tileCounts 300 + 1 ∧
      ((TerritoryMap.init 2 2).setOwner 0 0 300).rescanCount 300 = 0 ∧
      (∀ smallId : Nat, smallId < 256 →
        ((TerritoryMap.init 2 2).setOwner 0 0 smallId).getOwner 0 0 = (smallId : Int))) :=
  ⟨⟨by decide, by decide⟩,
    c10_uint8_truncation (TerritoryMap.init 2 2) 0 0 300 (by decide) (by decide)
      (by decide) (by decide)⟩

/-! ## Claim C7: camping regulator -/

theorem updMap_apply {α : Type} (f : Nat → α) (k : Nat) (v : α) (i : Nat) :
    updMap f k v i = if i = k then v else f i := rfl

/-- The removal loop clears exactly the first `n` shuffled border tiles
that are not the player's tile. -/
theorem shrinkRemoveLoop_spec (pt : Int × Int) :
    ∀ (l : List (Int × Int)) (m : TerritoryMap) (n : Nat),
    shrinkRemoveLoop pt m l n =
      ((l.filter (fun t => t ≠ pt)).take n).foldl
        (fun mm t => mm.setOwner t.1 t.2 0) m := by
  intro l
  induction l with
  | nil =>
    intro m n
    cases n <;> simp [shrinkRemoveLoop]
  | cons t rest ih =>
    intro m n
    cases n with
    | zero => simp [shrinkRemoveLoop]
    | succ k =>
      by_cases hpt : t = pt
      · rw [shrinkRemoveLoop]
        rw [if_pos hpt]
        rw [ih m (k + 1)]
        congr 1
        simp [List.filter_cons, hpt]
      · rw [shrinkRemoveLoop]
        rw [if_neg hpt]
        rw [ih (m.setOwner t.1 t.2 0) k]
        simp [List.filter_cons, hpt]

/-- C7 (amended), for a single-agent state. -/
theorem c7_camping_regulator (gs : GameState) (p : Player) (dt : ℚ)
    (shuffle : Nat → List (Int × Int) → List (Int × Int))
    (hply : gs.players = [p])
    (hperm : ∀ l : List (Int × Int), (shuffle p.id l).Perm l) :
    (p.alive = false →
      (updateCampingMechanic dt shuffle gs).campingTimers p.id = 0 ∧
      (updateCampingMechanic dt shuffle gs).shrinkAccumulators p.id = 0) ∧
    (p.alive = true →
      gs.territoryMap.getOwner (gs.territoryMap.worldToTile p.pos).1
        (gs.territoryMap.worldToTile p.pos).2 = (p.id : Int) →
      p.tail = [] →
      (updateCampingMechanic dt shuffle gs).campingTimers p.id =
        gs.campingTimers p.id + dt) ∧
    (p.alive = true →
      ¬(gs.territoryMap.getOwner (gs.territoryMap.worldToTile p.pos).1
          (gs.territoryMap.worldToTile p.pos).2 = (p.id : Int) ∧ p.tail = []) →
      (updateCampingMechanic dt shuffle gs).campingTimers p.id =
        max 0 (gs.campingTimers p.id - dt)) ∧
    (p.alive = true →
      gs.territoryMap.getOwner (gs.territoryMap.worldToTile p.pos).1
        (gs.territoryMap.worldToTile p.pos).2 = (p.id : Int) →
      p.tail = [] →
      campingThreshold < gs.campingTimers p.id + dt →
      ∀ n : Int,
        n = ⌊(gs.shrinkAccumulators p.id + dt) *
          (if gs.difficulty = .impossible then shrinkRateCfg * 2 else shrinkRateCfg)⌋ →
      0 < n →
      gs.territoryMap.getBorderTiles p.id ≠ [] →
      ∀ removed : List (Int × Int),
        removed = ((shuffle p.id (gs.territoryMap.getBorderTiles p.id)).filter
          (fun t => t ≠ gs.territoryMap.worldToTile p.pos)).take n.toNat →
        ((updateCampingMechanic dt shuffle gs).territoryMap =
          removed.foldl (fun mm t => mm.setOwner t.1 t.2 0) gs.territoryMap ∧
        gs.territoryMap.worldToTile p.pos ∉ removed ∧
        (∀ t ∈ removed, t ∈ gs.territoryMap.getBorderTiles p.id) ∧
        removed.length = min n.toNat
          (((shuffle p.id (gs.territoryMap.getBorderTiles p.id)).filter
            (fun t => t ≠ gs.territoryMap.worldToTile p.pos)).length))) := by
  have hstep : updateCampingMechanic dt shuffle gs = updateCampingPlayer dt shuffle gs 0 := by
    unfold updateCampingMechanic
    rw [hply]
    rfl
  have hget : gs.players.getD 0 default = p := by rw [hply]; rfl
  refine ⟨?_, ?_, ?_, ?_⟩
  · intro hdead
    rw [hstep]
    unfold updateCampingPlayer
    rw [hget]
    simp only []
    rw [hdead]
    simp [updMap_apply]
  · intro halive heq htail
    rw [hstep]
    unfold updateCampingPlayer
    rw [hget]
    simp only []
    rw [halive]
    simp only [Bool.not_true, Bool.false_eq_true, if_false]
    rw [if_pos ⟨heq, by simp [htail]⟩]
    split_ifs <;> simp [updMap_apply, shrinkTerritory] <;> (try split_ifs) <;> (try simp [updMap_apply])
  · intro halive hnc
    rw [hstep]
    unfold updateCampingPlayer
    rw [hget]
    simp only []
    rw [halive]
    simp only [Bool.not_true, Bool.false_eq_true, if_false]
    rw [if_neg (by intro h; exact hnc ⟨h.1, by simpa using h.2⟩)]
    simp [updMap_apply]
  · intro halive heq htail hthr n hn hpos hbne removed hrem
    rw [hstep]
    unfold updateCampingPlayer
    rw [hget]
    simp only []
    rw [halive]
    simp only [Bool.not_true, Bool.false_eq_true, if_false]
    rw [if_pos ⟨heq, by simp [htail]⟩]
    rw [if_pos hthr, if_pos (by rw [← hn]; exact hpos)]
    have hfind : gs.players.find? (fun q => q.id == p.id) = some p := by
      rw [hply]
      simp [List.find?]
    unfold shrinkTerritory
    rw [if_neg hbne, hfind]
    simp only []
    rw [← hn]
    constructor
    · show shrinkRemoveLoop _ gs.territoryMap _ n.toNat = _
      rw [shrinkRemoveLoop_spec, hrem]
    refine ⟨?_, ?_, ?_⟩
    · rw [hrem]
      intro hmem
      have := List.mem_filter.mp (List.mem_of_mem_take hmem)
      simp at this
    · intro t ht
      rw [hrem] at ht
      have h1 := List.mem_of_mem_take ht
      have h2 := (List.mem_filter.mp h1).1
      exact (hperm (gs.territoryMap.getBorderTiles p.id)).mem_iff.mp h2
    · rw [hrem, List.length_take]

theorem c7_counterexample :
    (updateCampingMechanic 1 idShuffle c7State).campingTimers 5 = 0 ∧
    c7State.campingTimers 5 = 5 ∧
    max 0 ((5 : ℚ) - 1) = 4 ∧ (0 : ℚ) ≠ 4 := by
  refine ⟨?_, rfl, by norm_num, by norm_num⟩
  show (updateCampingPlayer 1 idShuffle c7State 0).campingTimers 5 = 0
  unfold updateCampingPlayer
  simp only [c7State, c7DeadPlayer]
  simp [updMap_apply]

theorem c7_camping_witness :
    c7wPlayer.alive = true ∧ c7wPlayer.tail = [] ∧
    (updateCampingMechanic 1 idShuffle c7w).campingTimers 7 = 4 + 1 := by
  have hin : c7w.territoryMap.getOwner (c7w.territoryMap.worldToTile c7wPlayer.pos).1
      (c7w.territoryMap.worldToTile c7wPlayer.pos).2 = ((7 : Nat) : Int) := by
    have hts : c7w.territoryMap.tileSize = 4 := rfl
    have hwt : c7w.territoryMap.worldToTile c7wPlayer.pos = (1, 1) := by
      simp only [TerritoryMap.worldToTile, hts, c7wPlayer]
      norm_num
    rw [hwt]
    decide
  exact ⟨rfl, rfl,
    (c7_camping_regulator c7w c7wPlayer 1 idShuffle rfl (fun l => List.Perm.refl l)).2.1
      rfl hin rfl⟩

/-! ## Claim C5: tail collisions kill, credit, transfer, and boost -/

set_option maxHeartbeats 4000000 in
/-- Claim C5: with players `[attacker, victim]` both alive and of distinct
ids, if the victim's trail has at least 3 points, the victim is not
boost-immune, and the attacker's position is within the collision distance
of a trail point before the last two, then after checkAllTailCollisions the
victim is dead, the attacker is credited exactly one kill, the victim's
territory is transferred to the attacker (cleared instead when the killer
is the human on impossible difficulty), and every 3rd kill activates the
attacker's boost; a boost-immune victim stays alive. -/
theorem c5_tail_collision (gs : GameState) (a v : Player) (oracle : RespawnOracle)
    (hply : gs.players = [a, v])
    (ha : a.alive = true) (hv : v.alive = true) (hne : a.id ≠ v.id) :
    (3 ≤ v.tail.length →
     isPlayerBoosted gs v.id = false →
     anyTailHit a.pos v.tail = true →
     (((checkAllTailCollisions oracle gs).players.getD 1 default).alive = false ∧
      ((checkAllTailCollisions oracle gs).players.getD 0 default).kills = a.kills + 1 ∧
      (checkAllTailCollisions oracle gs).territoryMap =
        (if gs.difficulty = .impossible ∧ a.id = 1
          then gs.territoryMap.clearOwnerTerritory v.id
          else gs.territoryMap.transferTerritory v.id a.id) ∧
      (checkAllTailCollisions oracle gs).boostEndTimes a.id =
        (if (a.kills + 1) % 3 = 0
          then some (gs.now + boostDuration) else gs.boostEndTimes a.id))) ∧
    (isPlayerBoosted gs v.id = true →
      ((checkAllTailCollisions oracle gs).players.getD 1 default).alive = true) := by
  have hbne : (a.id == v.id) = false := by simp [hne]
  have hbne' : (v.id == a.id) = false := by simp [Ne.symm hne]
  have hrange : List.range ([a, v] : List Player).length = [0, 1] := rfl
  constructor
  · intro htl hbo hhit
    have hltf : ¬(v.tail.length < 3) := by omega
    simp only [checkAllTailCollisions, processAttacker, processVictim, handlePlayerDeath,
      activateBoost, hply, hrange, List.foldl_cons, List.foldl_nil,
      List.getD_cons_zero, List.getD_cons_succ, List.set_cons_zero, List.set_cons_succ,
      ha, hv, hbne, Bool.not_true, Bool.false_or, beq_self_eq_true, if_true, if_false,
      hbo, hhit, hltf, Bool.or_true, Bool.true_or, Bool.or_false]
    split_ifs <;> (try contradiction) <;>
      simp [updMap_apply, hply, List.getD_cons_zero, List.getD_cons_succ]
  · intro hbo
    have hself : ∀ (g : GameState) (i : Nat), processVictim oracle i g i = g := by
      intro g i
      unfold processVictim
      simp
    have hv01 : processVictim oracle 0 gs 1 = gs := by
      unfold processVictim
      rw [hply]
      simp [hbo]
    have e0 : processAttacker oracle gs 0 = gs := by
      unfold processAttacker
      rw [hply]
      simp only [List.getD_cons_zero, ha, Bool.not_true, Bool.false_eq_true, if_false]
      rw [hrange]
      simp only [List.foldl_cons, List.foldl_nil]
      rw [hself gs 0, hv01]
    have hpres : ((processVictim oracle 1 gs 0).players.getD 1 default).alive = true := by
      simp only [processVictim, handlePlayerDeath, activateBoost, hply,
        List.getD_cons_zero, List.getD_cons_succ, List.set_cons_zero, List.set_cons_succ,
        ha, hbne', Bool.not_true, Bool.false_or, Bool.false_eq_true, if_false]
      split_ifs <;>
        simp [hply, hv, List.getD_cons_zero, List.getD_cons_succ]
    unfold checkAllTailCollisions
    rw [hply, hrange]
    simp only [List.foldl_cons, List.foldl_nil]
    rw [e0]
    unfold processAttacker
    rw [hply]
    simp only [List.getD_cons_succ, List.getD_cons_zero, hv, Bool.not_true,
      Bool.false_eq_true, if_false]
    rw [hrange]
    simp only [List.foldl_cons, List.foldl_nil]
    rw [hself]
    exact hpres

/-- Claim C5 witness: a concrete two-player hit. -/
theorem c5_tail_collision_witness :
    ((checkAllTailCollisions trivialOracle c5wState).players.getD 1 default).alive = false ∧
    ((checkAllTailCollisions trivialOracle c5wState).players.getD 0 default).kills = 3 := by
  have h := (c5_tail_collision c5wState c5wA c5wV trivialOracle rfl rfl rfl (by decide)).1
      (by decide) rfl
      (by simp [anyTailHit, c5wA, c5wV, distLt, distSq, collisionDist, playerRadius])
  exact ⟨h.1, h.2.1⟩

/-! ## Claim C6: capture scheduling -/

theorem c6_wall : checkWallCollisions trivialOracle c6State = c6State := by
  have hhit : wallCollisionHit c6Player.pos = false := by
    simp only [wallCollisionHit, c6Player]
    norm_num [arenaWidthPx, arenaHeightPx, widthTilesCfg, heightTilesCfg, tileSizeCfg]
  simp only [checkWallCollisions]
  rw [show List.range c6State.players.length = [0] from rfl]
  simp only [List.foldl_cons, List.foldl_nil]
  simp [show c6State.players[0]? = some c6Player from rfl, hhit]

theorem c6_tile : c6State.territoryMap.worldToTile c6Player.pos = ((2 : Int), (2 : Int)) := by
  simp only [TerritoryMap.worldToTile, c6Player, show c6State.territoryMap.tileSize = 4 from rfl]
  norm_num

theorem c6_tail_step : updateTailMechanicsAll trivialOracle c6State = c6Mid := by
  simp only [updateTailMechanicsAll]
  rw [show List.range c6State.players.length = [0] from rfl]
  simp only [List.foldl_cons, List.foldl_nil]
  rw [if_pos (show (c6State.players.getD 0 default).alive = true from rfl)]
  simp only [updateTailMechanicsForPlayer, queueCapture,
    show c6State.players.getD 0 default = c6Player from rfl, c6_tile]
  rw [if_pos (show c6State.territoryMap.getOwner 2 2 = ((c6Player.id : Nat) : Int) by decide)]
  rw [if_pos ?side]
  case side =>
    refine ⟨?_, ?_⟩
    · show ¬(c6State.wasInOwnTerritory c6Player.id = true)
      simp [c6State]
    · show c6Player.tail ≠ []
      simp [c6Player, c6Tail]
  show ({ c6State with captureQueue := c6State.captureQueue ++ [⟨c6Player.id, c6Player.tail⟩], players := (c6State.players).set 0 { c6Player with tail := [], isDrawingTail := false, lastTailPoint := none }, wasInOwnTerritory := updMap c6State.wasInOwnTerritory c6Player.id (decide (c6State.territoryMap.getOwner 2 2 = ((c6Player.id : Nat) : Int))) } : GameState) = c6Mid
  rw [show (decide (c6State.territoryMap.getOwner 2 2 = ((c6Player.id : Nat) : Int))) = true from by decide]
  simp only [c6Mid, c6Player1, c6State, c6Player]
  norm_num

theorem c6_coll : checkAllTailCollisions trivialOracle c6Mid = c6Mid := by
  have hone : processVictim trivialOracle 0 c6Mid 0 = c6Mid := by
    unfold processVictim
    simp
  simp only [checkAllTailCollisions]
  rw [show List.range c6Mid.players.length = [0] from rfl]
  simp only [List.foldl_cons, List.foldl_nil, processAttacker]
  rw [show List.range c6Mid.players.length = [0] from rfl]
  simp only [List.foldl_cons, List.foldl_nil, hone]
  split_ifs <;> rfl

theorem c6_drain : processQueuedCaptures budgetNeverExhausted c6Mid =
    { c6Mid with captureQueue := [], territoryMap := applyJobToMap c6Mid.players c6Mid.territoryMap ⟨1, c6Tail⟩ } := rfl

theorem c6_apply : applyJobToMap c6Mid.players c6Mid.territoryMap ⟨1, c6Tail⟩ =
    captureFromTailTiles c6Map 1 c6TailTiles := by
  simp only [applyJobToMap]
  rw [show c6Mid.players.find? (fun p => p.id == (1 : Nat)) = some c6Player1 from rfl]
  show captureTerritoryFromTail c6Map c6Player1 c6Tail = _
  unfold captureTerritoryFromTail
  rw [if_neg (by decide)]
  congr 1
  show c6Tail.map c6Map.worldToTile ++ [c6Map.worldToTile c6Player1.pos] = c6TailTiles
  simp only [c6Tail, c6TailTiles, c6Player1, c6Player, List.map, TerritoryMap.worldToTile,
    show c6Map.tileSize = 4 from rfl]
  norm_num

set_option maxRecDepth 1000000 in
/-- Counterexample to C6 as stated: at the start of the tick the player is
re-entering (it was outside its territory last tick and carries a nonempty
recorded trail) and the capture queue is empty, yet after the single tick
the grid has already gained tile (4,2): the capture is applied
synchronously within the same tick, because the per-tick drain runs after
the tail pass of the very tick that enqueued the job. -/
theorem c6_counterexample :
    c6State.wasInOwnTerritory 1 = false ∧
    c6State.captureQueue = [] ∧
    c6Player.tail ≠ [] ∧
    c6Map.getOwner 4 2 = 0 ∧
    c6After.territoryMap.getOwner 4 2 = 1 := by
  refine ⟨rfl, rfl, by simp [c6Player, c6Tail], by decide, ?_⟩
  show (tickCapturePipeline trivialOracle budgetNeverExhausted c6State).territoryMap.getOwner 4 2 = 1
  unfold tickCapturePipeline
  rw [c6_wall, c6_tail_step, c6_coll, c6_drain]
  show (applyJobToMap c6Mid.players c6Mid.territoryMap ⟨1, c6Tail⟩).getOwner 4 2 = 1
  rw [c6_apply]
  decide

theorem processQueuedCapturesGo_spec (budget : Nat → Bool) :
    ∀ (fuel k : Nat) (gs : GameState), ∃ j,
      processQueuedCapturesGo budget k fuel gs =
        { gs with territoryMap := (gs.captureQueue.take j).foldl (applyJobToMap gs.players) gs.territoryMap, captureQueue := gs.captureQueue.drop j } := by
  intro fuel
  induction fuel with
  | zero =>
    intro k gs
    exact ⟨0, by simp [processQueuedCapturesGo]⟩
  | succ n ih =>
    intro k gs
    cases hq : gs.captureQueue with
    | nil =>
      refine ⟨0, ?_⟩
      simp only [processQueuedCapturesGo, hq, List.foldl_nil, List.take_nil, List.drop_nil]
      rw [← hq]
    | cons job rest =>
      by_cases hb : budget k = true
      · refine ⟨0, ?_⟩
        simp only [processQueuedCapturesGo, hq, hb, if_true, List.take_zero, List.foldl_nil,
          List.drop_zero]
        rw [← hq]
      · obtain ⟨j, hj⟩ := ih (k + 1)
          { gs with captureQueue := rest, territoryMap := applyJobToMap gs.players gs.territoryMap job }
        refine ⟨j + 1, ?_⟩
        simp only [processQueuedCapturesGo, hq, hb, if_false]
        rw [hj]
        simp [hq, List.take_succ_cons, List.drop_succ_cons]

/-- Claim C6 (amended): the re-entry handler itself never touches the grid,
it only appends one CaptureJob carrying the trail copy to the back of the
queue; and the drain applies, in FIFO order, some prefix of the queued jobs
to the grid (each applied atomically in full) and leaves exactly the
remaining suffix queued.  (The original claim's "never applied in the same
tick" is refuted separately: the drain runs later in the same tick.) -/
theorem c6_capture_scheduling (oracle : RespawnOracle) (budget : Nat → Bool)
    (g : GameState) (i : Nat) :
    (g.territoryMap.getOwner (g.territoryMap.worldToTile (g.players.getD i default).pos).1
        (g.territoryMap.worldToTile (g.players.getD i default).pos).2 =
        ((g.players.getD i default).id : Int) →
     g.wasInOwnTerritory (g.players.getD i default).id = false →
     (g.players.getD i default).tail ≠ [] →
     (updateTailMechanicsForPlayer oracle g i).territoryMap = g.territoryMap ∧
     (updateTailMechanicsForPlayer oracle g i).captureQueue =
       g.captureQueue ++ [⟨(g.players.getD i default).id, (g.players.getD i default).tail⟩]) ∧
    (∃ k, processQueuedCaptures budget g =
      { g with territoryMap := (g.captureQueue.take k).foldl (applyJobToMap g.players) g.territoryMap, captureQueue := g.captureQueue.drop k }) := by
  constructor
  · intro hin hwas htail
    unfold updateTailMechanicsForPlayer queueCapture
    simp only [hin, hwas]
    rw [List.getD_eq_getElem?_getD] at htail
    simp [htail]
  · simp only [processQueuedCaptures]
    by_cases hq : g.captureQueue = []
    · refine ⟨0, ?_⟩
      rw [if_pos hq]
      simp only [List.take_zero, List.foldl_nil, List.drop_zero]
    · rw [if_neg hq]
      exact processQueuedCapturesGo_spec budget g.captureQueue.length 0 g

/-- Claim C6 witness: the concrete re-entry state enqueues without touching
the grid, and the drain on the queued state processes a FIFO prefix. -/
theorem c6_capture_scheduling_witness :
    (updateTailMechanicsForPlayer trivialOracle c6State 0).territoryMap = c6Map ∧
    (updateTailMechanicsForPlayer trivialOracle c6State 0).captureQueue = [⟨1, c6Tail⟩] ∧
    (∃ k, processQueuedCaptures budgetNeverExhausted c6Mid =
      { c6Mid with territoryMap := (c6Mid.captureQueue.take k).foldl (applyJobToMap c6Mid.players) c6Mid.territoryMap, captureQueue := c6Mid.captureQueue.drop k }) := by
  have htile : c6State.territoryMap.worldToTile (c6State.players.getD 0 default).pos =
      ((2 : Int), (2 : Int)) := c6_tile
  have h1 := (c6_capture_scheduling trivialOracle budgetNeverExhausted c6State 0).1
    (by rw [htile]; decide)
    rfl
    (by show c6Player.tail ≠ []; simp [c6Player, c6Tail])
  have h2 := (c6_capture_scheduling trivialOracle budgetNeverExhausted c6Mid 0).2
  exact ⟨h1.1, by rw [h1.2]; rfl, h2⟩

end PaperGame
